import Mathlib

/-!
# Verification of the sqlp condition compiler, query builders and schema subsystem

Shallow embedding of the `sqlp` Python package (files `sqlp/types.py`,
`sqlp/sql.py`, `sqlp/snapshot.py`, `sqlp/schema.py`, `sqlp/table.py`).
Python values that can flow through conditions and parameters are modelled by
the inductive `Value`; Python `assert`/`ValueError`/`TypeError`/`KeyError`
failures are modelled by `Except PyError`; Python dicts (which preserve
insertion order) are modelled by association lists.
-/

namespace Sqlp

/-- The three SQL dialects accepted by `ConditionCompiler.__init__`
(`sql.py` line 41 asserts membership in this set). -/
inductive Dialect where
  | postgresql
  | sqlite
  | mysql
deriving DecidableEq, Repr

/-- Python runtime values as far as sqlp manipulates them: condition values,
SET values, defaults.  `vList` models Python lists (used by `IN`). -/
inductive Value where
  | vNone
  | vBool (b : Bool)
  | vInt (n : Int)
  | vStr (s : String)
  | vList (vs : List Value)
deriving Repr

/-- Python scalar types used by `ColumnRef.python_type` / `Column.python_type`;
beyond the JSON scalars, the dialects' `_TYPE_MAP`s (`types.py` lines 30-85)
admit `float`, `bytes`, `UUID`, `datetime` and `Decimal` columns, so these
are reachable `Column[T]` parameters. -/
inductive PyType where
  | int
  | str
  | bool
  | noneType
  | list
  | float
  | bytes
  | uuid
  | datetime
  | decimal
deriving DecidableEq, Repr

/-- Python `type(v)` on a `Value`. -/
def valueType : Value → PyType
  | .vNone => .noneType
  | .vBool _ => .bool
  | .vInt _ => .int
  | .vStr _ => .str
  | .vList _ => .list

/-- The failure modes of the embedded Python code: `assertionError` models a
failed `assert` statement (the spec's Precondition-Violated condition),
`valueError` / `keyError` / `typeError` model the corresponding raised
exceptions. -/
inductive PyError where
  | assertionError (msg : String)
  | valueError (msg : String)
  | keyError (msg : String)
  | typeError (msg : String)
deriving DecidableEq, Repr

/-- The condition AST of `types.py`: `ColumnCondition` (line 236) is `simple`,
`CompoundCondition` (line 254) is `compound` with its ordered child list. -/
inductive Condition where
  | simple (column_name : String) (operator : String) (value : Value)
  | compound (conditions : List Condition) (operator : String)
deriving Repr

/-- `ColumnCondition.__and__` (`types.py` line 244): always builds a fresh
two-child AND compound. -/
def simpleAnd (self : Condition) (other : Condition) : Condition :=
  .compound [self, other] "AND"

/-- `ColumnCondition.__or__` (`types.py` line 248). -/
def simpleOr (self : Condition) (other : Condition) : Condition :=
  .compound [self, other] "OR"

/-- `CompoundCondition.__and__` (`types.py` line 260): flattens exactly when
the receiver is an AND compound and the right operand is a simple
`ColumnCondition`; otherwise nests. -/
def compoundAnd (conditions : List Condition) (operator : String)
    (other : Condition) : Condition :=
  if operator = "AND" then
    match other with
    | .simple c o v => .compound (conditions ++ [.simple c o v]) "AND"
    | _ => .compound [.compound conditions operator, other] "AND"
  else .compound [.compound conditions operator, other] "AND"

/-- `CompoundCondition.__or__` (`types.py` line 266). -/
def compoundOr (conditions : List Condition) (operator : String)
    (other : Condition) : Condition :=
  if operator = "OR" then
    match other with
    | .simple c o v => .compound (conditions ++ [.simple c o v]) "OR"
    | _ => .compound [.compound conditions operator, other] "OR"
  else .compound [.compound conditions operator, other] "OR"

/-- Python's `&` dispatch on a condition value: `ColumnCondition.__and__` or
`CompoundCondition.__and__` depending on the runtime class of the left side. -/
def condAnd : Condition → Condition → Condition
  | .simple c o v, other => simpleAnd (.simple c o v) other
  | .compound cs op, other => compoundAnd cs op other

/-- Python's `|` dispatch on a condition value. -/
def condOr : Condition → Condition → Condition
  | .simple c o v, other => simpleOr (.simple c o v) other
  | .compound cs op, other => compoundOr cs op other

/-- `ColumnRef.in_` (`types.py` line 218): asserts the collection is
non-empty, then asserts every element has exactly the column's Python type,
then returns the `IN` condition. -/
def ColumnRef_in (column_name : String) (python_type : PyType)
    (values : List Value) : Except PyError Condition :=
  if values.isEmpty then .error (.assertionError "IN list cannot be empty")
  else if values.all (fun v => valueType v = python_type) then
    .ok (.simple column_name "IN" (.vList values))
  else .error (.assertionError "All values in IN list must be of the column type")

/-- `ConditionCompiler` state (`sql.py` line 30): dialect, accumulated
parameter list, and the PostgreSQL placeholder counter. -/
structure ConditionCompiler where
  sql_dialect : Dialect
  parameters : List Value := []
  param_counter : Nat := 0
deriving Repr

/-- `ConditionCompiler._next_placeholder` (`sql.py` line 48): PostgreSQL
increments the counter and emits `$n`; SQLite emits `?`; MySQL emits `%s`. -/
def ConditionCompiler._next_placeholder (cc : ConditionCompiler) :
    String × ConditionCompiler :=
  match cc.sql_dialect with
  | .postgresql =>
      ("$" ++ Nat.repr (cc.param_counter + 1),
        { cc with param_counter := cc.param_counter + 1 })
  | .sqlite => ("?", cc)
  | .mysql => ("%s", cc)

/-- Python `sep.join(parts)`. -/
def strJoin (sep : String) : List String → String
  | [] => ""
  | [s] => s
  | s :: rest => s ++ sep ++ strJoin sep rest

/-- Emits `n` fresh placeholders in order (the list comprehension
`[self._next_placeholder() for _ in value]` in `_compile_simple`). -/
def ConditionCompiler._placeholders (cc : ConditionCompiler) :
    Nat → List String × ConditionCompiler
  | 0 => ([], cc)
  | n + 1 =>
      let pr := cc._next_placeholder
      let rest := pr.2._placeholders n
      (pr.1 :: rest.1, rest.2)

/-- `ConditionCompiler._compile_simple` (`sql.py` line 66).  The `IN` branch
asserts that the value is a Python list. -/
def ConditionCompiler._compile_simple (cc : ConditionCompiler)
    (col_name operator : String) (value : Value) :
    Except PyError (String × ConditionCompiler) :=
  if operator = "IS NULL" then .ok (col_name ++ " IS NULL", cc)
  else if operator = "IS NOT NULL" then .ok (col_name ++ " IS NOT NULL", cc)
  else if operator = "IN" then
    match value with
    | .vList vs =>
        let pr := cc._placeholders vs.length
        .ok (col_name ++ " IN (" ++ strJoin ", " pr.1 ++ ")",
          { pr.2 with parameters := pr.2.parameters ++ vs })
    | _ => .error (.assertionError "IN operator requires a list")
  else
    let pr := cc._next_placeholder
    .ok (col_name ++ " " ++ operator ++ " " ++ pr.1,
      { pr.2 with parameters := pr.2.parameters ++ [value] })

mutual

/-- `ConditionCompiler.compile` (`sql.py` line 59): dispatch on the node kind. -/
def ConditionCompiler.compile (cc : ConditionCompiler) (condition : Condition) :
    Except PyError (String × ConditionCompiler) :=
  match condition with
  | .simple col op v => cc._compile_simple col op v
  | .compound conds op =>
      match ConditionCompiler._compile_parts cc conds with
      | .ok (parts, cc2) => .ok (strJoin (" " ++ op ++ " ") parts, cc2)
      | .error e => .error e

/-- The loop of `ConditionCompiler._compile_compound` (`sql.py` line 88):
compiles each child depth-first left-to-right and parenthesizes each
fragment individually. -/
def ConditionCompiler._compile_parts (cc : ConditionCompiler) :
    List Condition → Except PyError (List String × ConditionCompiler)
  | [] => .ok ([], cc)
  | c :: rest =>
      match ConditionCompiler.compile cc c with
      | .ok (s, cc1) =>
          match ConditionCompiler._compile_parts cc1 rest with
          | .ok (ss, cc2) => .ok (("(" ++ s ++ ")") :: ss, cc2)
          | .error e => .error e
      | .error e => .error e

end

mutual

/-- Specification-side function: the parameters a condition tree contributes,
in depth-first left-to-right evaluation order (the order the spec's §4.3
describes).  `IN` with a non-list value never compiles, so the value chosen
for that case is irrelevant. -/
def treeParams : Condition → List Value
  | .simple _ op v =>
      if op = "IS NULL" then []
      else if op = "IS NOT NULL" then []
      else if op = "IN" then
        match v with
        | .vList vs => vs
        | _ => []
      else [v]
  | .compound conds _ => treeParamsList conds

/-- DFS parameter collection over a child list. -/
def treeParamsList : List Condition → List Value
  | [] => []
  | c :: rest => treeParams c ++ treeParamsList rest

end

/-- The character that identifies a placeholder in compiled text:
`$` (`$1`, `$2`, …), `?`, or the `%` of `%s`. -/
def markerChar : Dialect → Char
  | .postgresql => '$'
  | .sqlite => '?'
  | .mysql => '%'

/-- The number of placeholders appearing in a piece of compiled SQL text,
counted through the dialect's marker character — each placeholder spelling
(`$n`, `?`, `%s`) contains its marker exactly once. -/
def countPlaceholders (d : Dialect) (s : String) : Nat :=
  s.data.count (markerChar d)

/-- A string free of all three placeholder marker characters (true of every
realistic column or operator name; needed so that text-level counting sees
exactly the emitted placeholders). -/
def cleanStr (s : String) : Bool :=
  s.data.all (fun c => c != '$' && c != '?' && c != '%')

mutual

/-- All column names and operators in the tree are marker-free. -/
def cleanCond : Condition → Bool
  | .simple col op _ => cleanStr col && cleanStr op
  | .compound conds op => cleanStr op && cleanCondList conds

def cleanCondList : List Condition → Bool
  | [] => true
  | c :: rest => cleanCond c && cleanCondList rest

end

/-- `pgInc d n` is how much the placeholder counter advances after emitting
`n` placeholders: `n` for PostgreSQL, `0` for the positional dialects. -/
def pgInc : Dialect → Nat → Nat
  | .postgresql, n => n
  | .sqlite, _ => 0
  | .mysql, _ => 0

/-- A sample condition tree used by the witnesses. -/
def demoCond : Condition :=
  .compound [.simple "a" "=" (.vInt 1), .simple "b" "IN" (.vList [.vInt 2, .vInt 3])]
    "AND"

/-- The compiler state after compiling `demoCond` fresh under PostgreSQL. -/
def demoCompiled : ConditionCompiler :=
  { sql_dialect := .postgresql, parameters := [.vInt 1, .vInt 2, .vInt 3],
    param_counter := 3 }

/-- `hasSub pat l`: `pat` occurs as a contiguous substring of `l`. -/
def hasSub (pat l : List Char) : Prop := ∃ u v, l = u ++ pat ++ v

/-- No adjacent `()` pair occurs in the character list. -/
def noPr (l : List Char) : Prop := ¬ hasSub ['(', ')'] l

/-- The character list contains no parenthesis at all. -/
def parenFree (l : List Char) : Prop := ∀ c ∈ l, c ≠ '(' ∧ c ≠ ')'

/-- Invariant satisfied by every compiled fragment of a well-formed condition:
it contains no `()` pair, is non-empty, does not end in `(` and does not start
with `)`. -/
structure FragOk (l : List Char) : Prop where
  noPair : noPr l
  ne_nil : l ≠ []
  last_ne : l.getLast? ≠ some '('
  head_ne : l.head? ≠ some ')'

/-- Invariant of a parenthesized child fragment `"(" ++ frag ++ ")"`. -/
structure PartOk (l : List Char) : Prop where
  noPair : noPr l
  head_eq : l.head? = some '('
  last_eq : l.getLast? = some ')'

/-- The column-name half of well-formedness: no parenthesis characters (true
of every realistic column name; without this a column literally named
`"x IN ()"` would smuggle the forbidden fragment into the text). -/
def noParenStr (s : String) : Bool :=
  s.data.all (fun c => !(c == '(') && !(c == ')'))

/-- The ten operators a `ColumnCondition` can carry (spec §3). -/
def validOp (op : String) : Bool :=
  op = "=" || op = "!=" || op = "<" || op = "<=" || op = ">" || op = ">=" ||
    op = "LIKE" || op = "IN" || op = "IS NULL" || op = "IS NOT NULL"

mutual

/-- Conditions reachable through the public API: operators come from the
fixed operator set, `IN` carries a non-empty list (guaranteed by
`ColumnRef.in_`), compound operators are `AND`/`OR` with at least one child
(guaranteed by `__and__`/`__or__`), and column names contain no
parentheses. -/
def wellFormedCond : Condition → Bool
  | .simple col op v =>
      noParenStr col && validOp op &&
        (if op = "IN" then
          match v with
          | .vList vs => !vs.isEmpty
          | _ => false
        else true)
  | .compound conds op =>
      (op = "AND" || op = "OR") && !conds.isEmpty && wellFormedCondList conds

def wellFormedCondList : List Condition → Bool
  | [] => true
  | c :: rest => wellFormedCond c && wellFormedCondList rest

end

/-- `SQLStatement` (`sql.py` line 22). -/
structure SQLStatement where
  text : String
  parameters : List Value := []
deriving Repr

/-! ### Schema snapshots (`snapshot.py`) -/

/-- Python runtime values as a snapshot `default` field can hold them:
`Column.default` is typed `Any` and is never validated against
`python_type` (`types.py` lines 113-148), so besides the JSON scalars and
lists it reaches tuples and the library-supported `Decimal`, `datetime`,
`UUID` and `bytes` values.  `pDecimal`/`pDatetime`/`pUuid` carry their
literal text, `pBytes` its byte values — enough structure to distinguish
them. -/
inductive PyValue where
  | pNone
  | pBool (b : Bool)
  | pInt (n : Int)
  | pStr (s : String)
  | pList (vs : List PyValue)
  | pTuple (vs : List PyValue)
  | pDecimal (lit : String)
  | pDatetime (iso : String)
  | pUuid (hex : String)
  | pBytes (bs : List Nat)
deriving Repr

/-- `ColumnSnapshot` (`snapshot.py` line 14): the class itself stores only
the *presence* of a default factory as a `Bool`. -/
structure ColumnSnapshot where
  name : String
  python_type : String
  primary_key : Bool := false
  unique : Bool := false
  nullable : Bool := false
  default : PyValue := .pNone
  default_factory : Bool := false
deriving Repr

/-- `TableSnapshot` (`snapshot.py` line 27); the Python `dict` of columns is
modelled as an association list in insertion order. -/
structure TableSnapshot where
  name : String
  columns : List (String × ColumnSnapshot)
  primary_key : Option String := none
deriving Repr

/-- `SchemaSnapshot` (`snapshot.py` line 36). -/
structure SchemaSnapshot where
  tables : List (String × TableSnapshot)
  version : String := "1.0"
deriving Repr

/-- JSON documents.  `to_json`/`from_json` are modelled at the level of the
JSON document tree: the text encoding/decoding pair (`json.dumps` /
`json.loads`) is the Python standard library, taken as a faithful external
serializer of this tree (object key order preserved, as Python guarantees). -/
inductive Json where
  | jNull
  | jBool (b : Bool)
  | jInt (n : Int)
  | jStr (s : String)
  | jArr (items : List Json)
  | jObj (fields : List (String × Json))
deriving Repr

mutual

/-- How `json.dumps` encodes a Python value held in a snapshot `default`
field: JSON scalars pass through, lists *and tuples* both become JSON
arrays, and `Decimal`, `datetime`, `UUID` and `bytes` make `json.dumps`
raise `TypeError: Object of type … is not JSON serializable`. -/
def pyValueToJson : PyValue → Except PyError Json
  | .pNone => .ok .jNull
  | .pBool b => .ok (.jBool b)
  | .pInt n => .ok (.jInt n)
  | .pStr s => .ok (.jStr s)
  | .pList vs =>
      match pyValueListToJson vs with
      | .ok js => .ok (.jArr js)
      | .error e => .error e
  | .pTuple vs =>
      match pyValueListToJson vs with
      | .ok js => .ok (.jArr js)
      | .error e => .error e
  | .pDecimal _ =>
      .error (.typeError "Object of type Decimal is not JSON serializable")
  | .pDatetime _ =>
      .error (.typeError "Object of type datetime is not JSON serializable")
  | .pUuid _ =>
      .error (.typeError "Object of type UUID is not JSON serializable")
  | .pBytes _ =>
      .error (.typeError "Object of type bytes is not JSON serializable")

def pyValueListToJson : List PyValue → Except PyError (List Json)
  | [] => .ok []
  | v :: rest =>
      match pyValueToJson v with
      | .ok j =>
          match pyValueListToJson rest with
          | .ok js => .ok (j :: js)
          | .error e => .error e
      | .error e => .error e

end

mutual

/-- How `json.loads` decodes a JSON document back into a Python value:
arrays always come back as *lists* (a tuple default does not survive the
round trip).  `jObj` cannot arise from `pyValueToJson`, so its image is
irrelevant. -/
def jsonToPyValue : Json → PyValue
  | .jNull => .pNone
  | .jBool b => .pBool b
  | .jInt n => .pInt n
  | .jStr s => .pStr s
  | .jArr items => .pList (jsonListToPyValue items)
  | .jObj _ => .pNone

def jsonListToPyValue : List Json → List PyValue
  | [] => []
  | j :: rest => jsonToPyValue j :: jsonListToPyValue rest

end

mutual

/-- The defaults on which `json.dumps` is defined *and* lossless: `None`,
`bool`, `int`, `str` and nested lists of such.  Tuples serialize but decode
as lists; `Decimal`/`datetime`/`UUID`/`bytes` do not serialize at all. -/
def jsonSafe : PyValue → Bool
  | .pNone => true
  | .pBool _ => true
  | .pInt _ => true
  | .pStr _ => true
  | .pList vs => jsonSafeList vs
  | .pTuple _ => false
  | .pDecimal _ => false
  | .pDatetime _ => false
  | .pUuid _ => false
  | .pBytes _ => false

def jsonSafeList : List PyValue → Bool
  | [] => true
  | v :: rest => jsonSafe v && jsonSafeList rest

end

/-- `dataclasses.asdict` on a `ColumnSnapshot` (dataclass field order)
followed by `json.dumps` on it: only the `default` field can make the
serializer raise. -/
def ColumnSnapshot.asdict (c : ColumnSnapshot) : Except PyError Json :=
  match pyValueToJson c.default with
  | .ok dj =>
      .ok (.jObj [("name", .jStr c.name), ("python_type", .jStr c.python_type),
        ("primary_key", .jBool c.primary_key), ("unique", .jBool c.unique),
        ("nullable", .jBool c.nullable), ("default", dj),
        ("default_factory", .jBool c.default_factory)])
  | .error e => .error e

/-- The serializer's walk over a table's column dict. -/
def columnsAsdict : List (String × ColumnSnapshot) →
    Except PyError (List (String × Json))
  | [] => .ok []
  | (n, c) :: rest =>
      match c.asdict with
      | .ok j =>
          match columnsAsdict rest with
          | .ok js => .ok ((n, j) :: js)
          | .error e => .error e
      | .error e => .error e

/-- `dataclasses.asdict` on a `TableSnapshot`, serialized. -/
def TableSnapshot.asdict (t : TableSnapshot) : Except PyError Json :=
  match columnsAsdict t.columns with
  | .ok cols =>
      .ok (.jObj [("name", .jStr t.name),
        ("columns", .jObj cols),
        ("primary_key",
          match t.primary_key with
          | some pk => .jStr pk
          | none => .jNull)])
  | .error e => .error e

/-- The serializer's walk over the snapshot's table dict. -/
def tablesAsdict : List (String × TableSnapshot) →
    Except PyError (List (String × Json))
  | [] => .ok []
  | (n, t) :: rest =>
      match t.asdict with
      | .ok j =>
          match tablesAsdict rest with
          | .ok js => .ok ((n, j) :: js)
          | .error e => .error e
      | .error e => .error e

/-- `SchemaSnapshot.to_json` (`snapshot.py` line 90):
`json.dumps(asdict(self), indent=2)` as the JSON document it serializes —
or the `TypeError` `json.dumps` raises on a non-serializable default. -/
def SchemaSnapshot.to_json (s : SchemaSnapshot) : Except PyError Json :=
  match tablesAsdict s.tables with
  | .ok ts => .ok (.jObj [("tables", .jObj ts), ("version", .jStr s.version)])
  | .error e => .error e

/-- `ColumnSnapshot(**col_data)` inside `from_json` (`snapshot.py` line 112):
reads every dataclass field from the decoded object by name; a missing or
wrongly-typed field is a `TypeError` as in Python. -/
def columnSnapshotOfJson (j : Json) : Except PyError ColumnSnapshot :=
  match j with
  | .jObj fields =>
      match List.lookup "name" fields, List.lookup "python_type" fields,
          List.lookup "primary_key" fields, List.lookup "unique" fields,
          List.lookup "nullable" fields, List.lookup "default" fields,
          List.lookup "default_factory" fields with
      | some (.jStr name), some (.jStr pt), some (.jBool pk), some (.jBool u),
          some (.jBool nu), some dj, some (.jBool df) =>
          .ok ⟨name, pt, pk, u, nu, jsonToPyValue dj, df⟩
      | _, _, _, _, _, _, _ =>
          .error (.typeError "ColumnSnapshot(**col_data)")
  | _ => .error (.typeError "ColumnSnapshot(**col_data)")

/-- The column loop of `from_json`. -/
def columnsOfJson : List (String × Json) →
    Except PyError (List (String × ColumnSnapshot))
  | [] => .ok []
  | (cname, cj) :: rest =>
      match columnSnapshotOfJson cj with
      | .ok cs =>
          match columnsOfJson rest with
          | .ok cols => .ok ((cname, cs) :: cols)
          | .error e => .error e
      | .error e => .error e

/-- One table entry of `from_json`: `TableSnapshot(name=table_data["name"],
columns=…, primary_key=table_data.get("primary_key"))`. -/
def tableSnapshotOfJson (tj : Json) : Except PyError TableSnapshot :=
  match tj with
  | .jObj fields =>
      match List.lookup "name" fields with
      | some (.jStr name) =>
          match List.lookup "columns" fields with
          | some (.jObj colFields) =>
              match columnsOfJson colFields with
              | .ok columns =>
                  .ok ⟨name, columns,
                    match List.lookup "primary_key" fields with
                    | some (.jStr pk) => some pk
                    | _ => none⟩
              | .error e => .error e
          | _ => .error (.keyError "columns")
      | _ => .error (.keyError "name")
  | _ => .error (.typeError "table_data")

/-- The table loop of `from_json`. -/
def tablesOfJson : List (String × Json) →
    Except PyError (List (String × TableSnapshot))
  | [] => .ok []
  | (tname, tj) :: rest =>
      match tableSnapshotOfJson tj with
      | .ok ts =>
          match tablesOfJson rest with
          | .ok tables => .ok ((tname, ts) :: tables)
          | .error e => .error e
      | .error e => .error e

/-- `SchemaSnapshot.from_json` (`snapshot.py` line 100): checks
`data["version"] == "1.0"` (assertion), then rebuilds tables and columns. -/
def SchemaSnapshot.from_json (j : Json) : Except PyError SchemaSnapshot :=
  match j with
  | .jObj fields =>
      match List.lookup "version" fields with
      | none => .error (.keyError "version")
      | some (.jStr v) =>
          if v = "1.0" then
            match List.lookup "tables" fields with
            | some (.jObj tfields) =>
                match tablesOfJson tfields with
                | .ok tables => .ok ⟨tables, "1.0"⟩
                | .error e => .error e
            | _ => .error (.keyError "tables")
          else .error (.assertionError ("Unsupported schema version: " ++ v))
      | some _ => .error (.assertionError "Unsupported schema version")
  | _ => .error (.typeError "data")

/-- `Column` metadata (`types.py` line 96) as far as snapshots consume it;
the default factory callable is modelled by its presence
(`default_factory is not None` is all `from_tables` reads). -/
structure ColumnDef where
  python_type : Option PyType
  primary_key : Bool := false
  unique : Bool := false
  nullable : Bool := false
  default : PyValue := .pNone
  default_factory_present : Bool := false
deriving Repr

/-- A registered table class as `from_tables` consumes it:
`__table_name__()`, `__columns__()` (insertion order), `__primary_key__()`. -/
structure TableClass where
  name : String
  columns : List (String × ColumnDef)
  primary_key : Option String := none
deriving Repr

/-- `python_type.__module__ + "." + python_type.__qualname__`. -/
def pyTypeName : PyType → String
  | .int => "builtins.int"
  | .str => "builtins.str"
  | .bool => "builtins.bool"
  | .noneType => "builtins.NoneType"
  | .list => "builtins.list"
  | .float => "builtins.float"
  | .bytes => "builtins.bytes"
  | .uuid => "uuid.UUID"
  | .datetime => "datetime.datetime"
  | .decimal => "decimal.Decimal"

/-- Python `dict[key] = val`: replaces in place, else appends. -/
def dictInsert {α : Type} (key : String) (val : α) :
    List (String × α) → List (String × α)
  | [] => [(key, val)]
  | (k, v) :: rest =>
      if k = key then (k, val) :: rest else (k, v) :: dictInsert key val rest

/-- The column loop of `from_tables` (`snapshot.py` lines 57-79): asserts
each column's `python_type` is set and records its fully-qualified name. -/
def columnSnapshotsOf : List (String × ColumnDef) →
    Except PyError (List (String × ColumnSnapshot))
  | [] => .ok []
  | (col_name, col) :: rest =>
      match col.python_type with
      | none =>
          .error (.assertionError ("Column " ++ col_name ++ " has no python_type set"))
      | some pt =>
          match columnSnapshotsOf rest with
          | .ok cols =>
              .ok ((col_name, ⟨col_name, pyTypeName pt, col.primary_key,
                col.unique, col.nullable, col.default,
                col.default_factory_present⟩) :: cols)
          | .error e => .error e

/-- The table loop of `from_tables`. -/
def fromTablesGo : List TableClass → List (String × TableSnapshot) →
    Except PyError (List (String × TableSnapshot))
  | [], acc => .ok acc
  | tc :: rest, acc =>
      match columnSnapshotsOf tc.columns with
      | .ok cols =>
          fromTablesGo rest (dictInsert tc.name ⟨tc.name, cols, tc.primary_key⟩ acc)
      | .error e => .error e

/-- `SchemaSnapshot.from_tables` (`snapshot.py` line 43). -/
def SchemaSnapshot.from_tables (table_classes : List TableClass) :
    Except PyError SchemaSnapshot :=
  if table_classes.isEmpty then
    .error (.assertionError "At least one table required")
  else
    match fromTablesGo table_classes [] with
    | .ok tables => .ok ⟨tables, "1.0"⟩
    | .error e => .error e

/-- `SchemaRegistry` (`snapshot.py` line 130). -/
structure SchemaRegistry where
  snapshot : SchemaSnapshot
deriving Repr

/-- `SchemaRegistry.table_exists` (`snapshot.py` line 150). -/
def SchemaRegistry.table_exists (r : SchemaRegistry) (table_name : String) :
    Bool :=
  (List.lookup table_name r.snapshot.tables).isSome

/-- `SchemaRegistry.column_exists` (`snapshot.py` line 154): total, `false`
for an unknown table. -/
def SchemaRegistry.column_exists (r : SchemaRegistry)
    (table_name column_name : String) : Bool :=
  match List.lookup table_name r.snapshot.tables with
  | none => false
  | some t => (List.lookup column_name t.columns).isSome

/-! ### Query builders (`sql.py`) -/

/-- `WhereClause` (`sql.py` line 142). -/
structure WhereClause where
  condition : Condition
deriving Repr

/-- `WhereClause.to_sql` (`sql.py` line 147). -/
def WhereClause.to_sql (w : WhereClause) (compiler : ConditionCompiler) :
    Except PyError (String × ConditionCompiler) :=
  match compiler.compile w.condition with
  | .ok pr => .ok ("WHERE " ++ pr.1, pr.2)
  | .error e => .error e

mutual

/-- `UpdateQueryBuilder._validate_condition` / the identical
`DeleteQueryBuilder._validate_condition` (`sql.py` lines 532, 606): every
referenced column must exist on the single target table. -/
def _validate_condition (r : SchemaRegistry) (table_name : String) :
    Condition → Except PyError Unit
  | .simple col _ _ =>
      if r.column_exists table_name col then .ok ()
      else .error (.valueError ("Column '" ++ col ++ "' not found in table '" ++
        table_name ++ "'"))
  | .compound conds _ => _validate_condition_list r table_name conds

def _validate_condition_list (r : SchemaRegistry) (table_name : String) :
    List Condition → Except PyError Unit
  | [] => .ok ()
  | c :: rest =>
      match _validate_condition r table_name c with
      | .ok _ => _validate_condition_list r table_name rest
      | .error e => .error e

end

/-- The SET-column registry check of `UpdateQueryBuilder.build`
(`sql.py` lines 497-503). -/
def _validate_columns (r : SchemaRegistry) (table_name : String) :
    List String → Except PyError Unit
  | [] => .ok ()
  | col :: rest =>
      if r.column_exists table_name col then _validate_columns r table_name rest
      else .error (.valueError ("Column '" ++ col ++ "' not found in table '" ++
        table_name ++ "'"))

/-- `DeleteQueryBuilder` state (`sql.py` line 557); the table is modelled by
its name, the registry by `Option SchemaRegistry`, and `_compiler` is the
builder's own `ConditionCompiler` instance (fresh at `__init__`). -/
structure DeleteQueryBuilder where
  table_name : String
  sql_dialect : Dialect
  registry : Option SchemaRegistry := none
  where_clause : Option WhereClause := none
  _compiler : ConditionCompiler
deriving Repr

/-- `DeleteQueryBuilder.where` (`sql.py` line 579). -/
def DeleteQueryBuilder.where (b : DeleteQueryBuilder) (condition : Condition) :
    DeleteQueryBuilder :=
  { b with where_clause := some ⟨condition⟩ }

/-- `DeleteQueryBuilder.build` (`sql.py` line 587): asserts a WHERE clause is
present before anything else, optionally validates against the registry,
then emits `DELETE FROM <table>\n<where>` with the compiler's parameters. -/
def DeleteQueryBuilder.build (b : DeleteQueryBuilder) :
    Except PyError SQLStatement :=
  match b.where_clause with
  | none =>
      .error (.assertionError
        "DELETE requires WHERE clause (safety: no unrestricted deletes)")
  | some w =>
      match
        ((match b.registry with
         | none => .ok ()
         | some r => _validate_condition r b.table_name w.condition) :
          Except PyError Unit) with
      | .error e => .error e
      | .ok _ =>
          match w.to_sql b._compiler with
          | .ok pr =>
              .ok ⟨"DELETE FROM " ++ b.table_name ++ "\n" ++ pr.1,
                pr.2.parameters⟩
          | .error e => .error e

/-- `UpdateQueryBuilder` state (`sql.py` line 455); the SET dict is an
association list in insertion order. -/
structure UpdateQueryBuilder where
  table_name : String
  sql_dialect : Dialect
  registry : Option SchemaRegistry := none
  _set_values : List (String × Value) := []
  where_clause : Option WhereClause := none
  _compiler : ConditionCompiler
deriving Repr

/-- `UpdateQueryBuilder._next_placeholder` (`sql.py` line 545): dispatches on
the *builder's* dialect and bumps the shared compiler's counter. -/
def UpdateQueryBuilder._next_placeholder (b : UpdateQueryBuilder) :
    String × UpdateQueryBuilder :=
  match b.sql_dialect with
  | .postgresql =>
      ("$" ++ Nat.repr (b._compiler.param_counter + 1),
        { b with _compiler :=
          { b._compiler with param_counter := b._compiler.param_counter + 1 } })
  | .sqlite => ("?", b)
  | .mysql => ("%s", b)

/-- The SET loop of `UpdateQueryBuilder.build` (`sql.py` lines 515-518):
builds `col = <ph>` parts and collects the SET values in insertion order. -/
def UpdateQueryBuilder._set_loop (b : UpdateQueryBuilder) :
    List (String × Value) → List String × List Value × UpdateQueryBuilder
  | [] => ([], [], b)
  | (col_name, value) :: rest =>
      let pr := b._next_placeholder
      let r := pr.2._set_loop rest
      ((col_name ++ " = " ++ pr.1) :: r.1, value :: r.2.1, r.2.2)

/-- `UpdateQueryBuilder.build` (`sql.py` line 492): asserts the SET map is
non-empty, optionally validates SET and WHERE columns against the registry,
emits `UPDATE <t>\nSET <parts>` and, when a WHERE clause is present,
appends its fragment (the shared compiler continues the placeholder count)
and extends the parameters with the compiler's accumulated list. -/
def UpdateQueryBuilder.build (b : UpdateQueryBuilder) :
    Except PyError SQLStatement :=
  if b._set_values.isEmpty then .error (.assertionError "No columns to update")
  else
    match
      ((match b.registry with
       | none => .ok ()
       | some r =>
          match _validate_columns r b.table_name (b._set_values.map Prod.fst) with
          | .error e => .error e
          | .ok _ =>
              match b.where_clause with
              | some w => _validate_condition r b.table_name w.condition
              | none => .ok ()) : Except PyError Unit) with
    | .error e => .error e
    | .ok _ =>
        let lp := b._set_loop b._set_values
        let sql := "UPDATE " ++ b.table_name ++ "\nSET " ++ strJoin ", " lp.1
        match b.where_clause with
        | none => .ok ⟨sql, lp.2.1⟩
        | some w =>
            match w.to_sql lp.2.2._compiler with
            | .ok pr => .ok ⟨sql ++ "\n" ++ pr.1, lp.2.1 ++ pr.2.parameters⟩
            | .error e => .error e

/-- `SelectClause` (`sql.py` line 98), tables modelled by their names. -/
structure SelectClause where
  tables : List String
  columns : Option (List String) := none
deriving Repr

/-- `SelectClause.to_sql` (`sql.py` line 105). -/
def SelectClause.to_sql (s : SelectClause) : String :=
  let columns_part :=
    match s.columns with
    | none => "*"
    | some cols => if cols.isEmpty then "*" else strJoin ", " cols
  "SELECT " ++ columns_part ++ " FROM " ++ strJoin ", " s.tables

/-- `JoinClause` (`sql.py` line 121). -/
structure JoinClause where
  join_type : String
  table_name : String
  on_condition : Option Condition := none
deriving Repr

/-- `JoinClause.to_sql` (`sql.py` line 129). -/
def JoinClause.to_sql (j : JoinClause) (compiler : ConditionCompiler) :
    Except PyError (String × ConditionCompiler) :=
  let sql := j.join_type ++ " JOIN " ++ j.table_name
  match j.on_condition with
  | none => .ok (sql, compiler)
  | some c =>
      match compiler.compile c with
      | .ok pr => .ok (sql ++ " ON " ++ pr.1, pr.2)
      | .error e => .error e

/-- `OrderByClause` (`sql.py` line 153). -/
structure OrderByClause where
  column_name : String
  direction : String := "ASC"
deriving Repr

/-- `OrderByClause.to_sql` (`sql.py` line 160), asserting the direction. -/
def OrderByClause.to_sql (o : OrderByClause) : Except PyError String :=
  if o.direction = "ASC" ∨ o.direction = "DESC" then
    .ok ("ORDER BY " ++ o.column_name ++ " " ++ o.direction)
  else .error (.assertionError ("Invalid order direction: " ++ o.direction))

/-- `LimitClause` (`sql.py` line 168). -/
structure LimitClause where
  limit : Int
deriving Repr

/-- `LimitClause.to_sql` (`sql.py` line 174), asserting positivity. -/
def LimitClause.to_sql (lc : LimitClause) : Except PyError String :=
  if lc.limit > 0 then .ok ("LIMIT " ++ lc.limit.repr)
  else .error (.assertionError "LIMIT must be positive")

/-- `OffsetClause` (`sql.py` line 180). -/
structure OffsetClause where
  offset : Int
deriving Repr

/-- `OffsetClause.to_sql` (`sql.py` line 186), asserting non-negativity. -/
def OffsetClause.to_sql (oc : OffsetClause) : Except PyError String :=
  if oc.offset ≥ 0 then .ok ("OFFSET " ++ oc.offset.repr)
  else .error (.assertionError "OFFSET must be non-negative")

/-- Helper of `SelectQueryBuilder._validate_condition` (`sql.py` line 320):
the column must exist in *some* selected table. -/
def column_in_any (r : SchemaRegistry) (tables : List String)
    (col : String) : Bool :=
  tables.any (fun t => r.column_exists t col)

mutual

def _validate_condition_any (r : SchemaRegistry) (tables : List String) :
    Condition → Except PyError Unit
  | .simple col _ _ =>
      if column_in_any r tables col then .ok ()
      else .error (.valueError ("Column '" ++ col ++ "' not found in selected tables"))
  | .compound conds _ => _validate_condition_any_list r tables conds

def _validate_condition_any_list (r : SchemaRegistry) (tables : List String) :
    List Condition → Except PyError Unit
  | [] => .ok ()
  | c :: rest =>
      match _validate_condition_any r tables c with
      | .ok _ => _validate_condition_any_list r tables rest
      | .error e => .error e

end

/-- The JOIN-condition loop of `_validate_if_registry` (`sql.py` line 302). -/
def _validate_joins (r : SchemaRegistry) (tables : List String) :
    List JoinClause → Except PyError Unit
  | [] => .ok ()
  | j :: rest =>
      match j.on_condition with
      | some c =>
          match _validate_condition_any r tables c with
          | .ok _ => _validate_joins r tables rest
          | .error e => .error e
      | none => _validate_joins r tables rest

/-- The ORDER-BY loop of `_validate_if_registry` (`sql.py` line 307). -/
def _validate_order_bys (r : SchemaRegistry) (tables : List String) :
    List OrderByClause → Except PyError Unit
  | [] => .ok ()
  | o :: rest =>
      if column_in_any r tables o.column_name then
        _validate_order_bys r tables rest
      else .error (.valueError ("Column '" ++ o.column_name ++
        "' not found in any selected table"))

/-- `SelectQueryBuilder` state (`sql.py` line 192). -/
structure SelectQueryBuilder where
  tables : List String
  sql_dialect : Dialect
  registry : Option SchemaRegistry := none
  join_clauses : List JoinClause := []
  where_clause : Option WhereClause := none
  order_by_clauses : List OrderByClause := []
  limit_clause : Option LimitClause := none
  offset_clause : Option OffsetClause := none
  _compiler : ConditionCompiler
deriving Repr

/-- `SelectQueryBuilder._validate_if_registry` (`sql.py` line 292). -/
def SelectQueryBuilder._validate_if_registry (b : SelectQueryBuilder) :
    Except PyError Unit :=
  match b.registry with
  | none => .ok ()
  | some r =>
      match
        (match b.where_clause with
         | some w => _validate_condition_any r b.tables w.condition
         | none => .ok ()) with
      | .error e => .error e
      | .ok _ =>
          match _validate_joins r b.tables b.join_clauses with
          | .error e => .error e
          | .ok _ => _validate_order_bys r b.tables b.order_by_clauses

/-- The JOIN loop of `SelectQueryBuilder.build` (`sql.py` line 270). -/
def joins_to_sql (compiler : ConditionCompiler) :
    List JoinClause → Except PyError (List String × ConditionCompiler)
  | [] => .ok ([], compiler)
  | j :: rest =>
      match j.to_sql compiler with
      | .ok pr =>
          match joins_to_sql pr.2 rest with
          | .ok r2 => .ok (pr.1 :: r2.1, r2.2)
          | .error e => .error e
      | .error e => .error e

/-- The ORDER BY loop of `SelectQueryBuilder.build` (`sql.py` line 278). -/
def order_bys_to_sql : List OrderByClause → Except PyError (List String)
  | [] => .ok []
  | o :: rest =>
      match o.to_sql with
      | .ok s =>
          match order_bys_to_sql rest with
          | .ok ss => .ok (s :: ss)
          | .error e => .error e
      | .error e => .error e

/-- `SelectQueryBuilder.build` (`sql.py` line 259): registry pre-check, then
SELECT, JOINs, WHERE, ORDER BYs, LIMIT, OFFSET newline-joined, parameters
from the builder's (mutated) compiler.  The returned builder carries the
mutated compiler, modelling that `build()` leaves its parameters behind on
`self._compiler`. -/
def SelectQueryBuilder.build (b : SelectQueryBuilder) :
    Except PyError (SQLStatement × SelectQueryBuilder) :=
  match b._validate_if_registry with
  | .error e => .error e
  | .ok _ =>
      match joins_to_sql b._compiler b.join_clauses with
      | .error e => .error e
      | .ok (join_sqls, cc1) =>
          match
            ((match b.where_clause with
             | some w =>
                 match w.to_sql cc1 with
                 | .ok pr => .ok ([pr.1], pr.2)
                 | .error e => .error e
             | none => .ok ([], cc1)) :
              Except PyError (List String × ConditionCompiler)) with
          | .error e => .error e
          | .ok (where_sqls, cc2) =>
              match order_bys_to_sql b.order_by_clauses with
              | .error e => .error e
              | .ok order_sqls =>
                  match
                    ((match b.limit_clause with
                     | some lc =>
                         match lc.to_sql with
                         | .ok s => .ok [s]
                         | .error e => .error e
                     | none => .ok []) : Except PyError (List String)) with
                  | .error e => .error e
                  | .ok limit_sqls =>
                      match
                        ((match b.offset_clause with
                         | some oc =>
                             match oc.to_sql with
                             | .ok s => .ok [s]
                             | .error e => .error e
                         | none => .ok []) : Except PyError (List String)) with
                      | .error e => .error e
                      | .ok offset_sqls =>
                          .ok (⟨strJoin "\n"
                              (SelectClause.to_sql ⟨b.tables, none⟩ ::
                                (join_sqls ++ where_sqls ++ order_sqls ++
                                  limit_sqls ++ offset_sqls)),
                              cc2.parameters⟩,
                            { b with _compiler := cc2 })

mutual

/-- Compile succeeds on exactly these trees: every `IN` node's value is a
Python list (the only `assert` inside `ConditionCompiler`). -/
def inListsOk : Condition → Bool
  | .simple _ op v =>
      if op = "IN" then
        match v with
        | .vList _ => true
        | _ => false
      else true
  | .compound conds _ => inListsOkList conds

def inListsOkList : List Condition → Bool
  | [] => true
  | c :: rest => inListsOk c && inListsOkList rest

end

/-- A string without the character `W` (so that the text provably contains
no `WHERE` fragment). -/
def noWStr (s : String) : Bool := s.data.all (fun c => c != 'W')

/-- Scanner for PostgreSQL placeholders: returns, in order, the digit run
following each `$` in the text.  `scanPH text = [¶1, …, ¶m]` means the text
contains exactly `m` placeholders spelled `$¶1 … $¶m` in that order. -/
def scanPH : List Char → List (List Char)
  | [] => []
  | c :: rest =>
      if c = '$' then
        rest.takeWhile Char.isDigit :: scanPH (rest.dropWhile Char.isDigit)
      else scanPH rest
termination_by l => l.length
decreasing_by
  · have h := congrArg List.length (List.takeWhile_append_dropWhile Char.isDigit rest)
    rw [List.length_append] at h
    simp only [List.length_cons]
    omega
  · simp

/-! ### Live schema validator (`schema.py`) -/

/-- The base-type normalization of `SchemaValidator._types_compatible`
(`schema.py` line 121): `split("(")[0].upper()`. -/
def normalizeBase (s : String) : String :=
  String.mk ((s.data.takeWhile (fun c => c != '(')).map Char.toUpper)

/-- The fixed alias table (`schema.py` lines 129-137). -/
def aliases : List (String × List String) :=
  [("INTEGER", ["INT", "BIGINT", "SMALLINT"]),
   ("INT", ["INTEGER", "BIGINT", "SMALLINT"]),
   ("TEXT", ["VARCHAR", "CHAR", "LONGTEXT"]),
   ("VARCHAR", ["TEXT", "CHAR"]),
   ("FLOAT", ["DOUBLE", "REAL"]),
   ("NUMERIC", ["DECIMAL"]),
   ("DECIMAL", ["NUMERIC"])]

/-- The body of `_types_compatible` after normalization: direct match, else
one-directional alias lookup keyed by the *declared* base type. -/
def _types_compatible_base (expected_base actual_base : String) : Bool :=
  if expected_base = actual_base then true
  else
    match List.lookup expected_base aliases with
    | some l => l.contains actual_base || actual_base = expected_base
    | none => false

/-- `SchemaValidator._types_compatible` (`schema.py` line 118). -/
def _types_compatible (expected actual : String) : Bool :=
  _types_compatible_base (normalizeBase expected) (normalizeBase actual)

/-! ### Table-name derivation (`table.py`) -/

/-- `_class_name_to_table_name` (`table.py` line 138): the indexed loop
`for i, char in enumerate(class_name)`, with its separator rule. -/
def _class_name_to_table_name (class_name : String) : String :=
  let cs := class_name.data
  let n := cs.length
  String.mk (((List.range n).map (fun i =>
    let c := cs.getD i ' '
    let sep :=
      c.isUpper && decide (0 < i) &&
        ((cs.getD (i - 1) ' ').isLower ||
          (decide (i + 1 < n) && (cs.getD (i + 1) ' ').isLower))
    (if sep then ['_'] else []) ++ [c.toLower])).flatten)

/-- The spec's formulation of the same rule (§4.2), written as a direct
recursion carrying the previous character and one character of lookahead:
a separator goes before an uppercase character at position `i > 0` exactly
when the previous character is lowercase or the next character is
lowercase; every character is lowercased. -/
def specSegment : Option Char → List Char → List Char
  | _, [] => []
  | prev, c :: rest =>
      let sep :=
        c.isUpper &&
          (match prev with
           | none => false
           | some p =>
               p.isLower ||
                 (match rest.head? with
                  | some nx => nx.isLower
                  | none => false))
      (if sep then ['_'] else []) ++ (c.toLower :: specSegment (some c) rest)

/-- The spec's table-name derivation as a whole-string function. -/
def spec_table_name (class_name : String) : String :=
  String.mk (specSegment none class_name.data)

/-! ### Concrete values used by the witnesses -/

/-- A fresh DELETE builder (no `where()` call yet). -/
def demoDelete : DeleteQueryBuilder :=
  { table_name := "user", sql_dialect := .postgresql,
    _compiler := { sql_dialect := .postgresql } }

/-- An UPDATE builder with a non-empty SET map whose WHERE condition holds
an `IN` with a non-list value (reachable through `ColumnRef.in_` on a `str`
column called with a non-empty string, whose characters all pass the
per-element type check). -/
def cexUpdate : UpdateQueryBuilder :=
  { table_name := "user", sql_dialect := .postgresql,
    _set_values := [("a", .vInt 1)],
    where_clause := some ⟨.simple "c" "IN" (.vInt 3)⟩,
    _compiler := { sql_dialect := .postgresql } }

/-- A fresh UPDATE builder with two SET entries and no WHERE. -/
def demoUpdate : UpdateQueryBuilder :=
  { table_name := "user", sql_dialect := .postgresql,
    _set_values := [("name", .vStr "x"), ("age", .vInt 3)],
    _compiler := { sql_dialect := .postgresql } }

/-- `demoUpdate` with a one-parameter WHERE condition. -/
def demoUpdateWhere : UpdateQueryBuilder :=
  { demoUpdate with where_clause := some ⟨.simple "id" "=" (.vInt 7)⟩ }

/-- A table class as `from_tables` consumes it. -/
def demoTableClass : TableClass :=
  { name := "user",
    columns := [("id", { python_type := some .int, primary_key := true }),
                ("email", { python_type := some .str, unique := true })],
    primary_key := some "id" }

/-- The snapshot `from_tables [demoTableClass]` produces. -/
def demoSnapshot : SchemaSnapshot :=
  ⟨[("user", ⟨"user",
    [("id", ⟨"id", "builtins.int", true, false, false, .pNone, false⟩),
     ("email", ⟨"email", "builtins.str", false, true, false, .pNone, false⟩)],
    some "id"⟩)], "1.0"⟩

/-- A fresh SELECT builder with a one-parameter WHERE condition. -/
def demoSelect : SelectQueryBuilder :=
  { tables := ["user"], sql_dialect := .postgresql,
    where_clause := some ⟨.simple "a" "=" (.vInt 1)⟩,
    _compiler := { sql_dialect := .postgresql } }

/-- Every column default in the snapshot is JSON-representable and
lossless. -/
def snapshotSafe (s : SchemaSnapshot) : Bool :=
  s.tables.all (fun t => t.2.columns.all (fun c => jsonSafe c.2.default))

/-- A reachable table class with a `Decimal` default:
`Column[Decimal](default=Decimal("1.5"))` passes `Column.__post_init__`
(`Decimal` is in every dialect's `_TYPE_MAP`, and `default` is never
type-checked). -/
def cexDecimalTable : TableClass :=
  { name := "account",
    columns := [("balance",
      { python_type := some .decimal, default := .pDecimal "1.5" })],
    primary_key := none }

/-- The snapshot `from_tables [cexDecimalTable]` produces. -/
def cexDecimalSnapshot : SchemaSnapshot :=
  ⟨[("account", ⟨"account",
    [("balance", ⟨"balance", "decimal.Decimal", false, false, false,
      .pDecimal "1.5", false⟩)], none⟩)], "1.0"⟩

/-- A reachable table class with a tuple default (`Column.default` is
unvalidated `Any`). -/
def cexTupleTable : TableClass :=
  { name := "point",
    columns := [("coords",
      { python_type := some .str, default := .pTuple [.pInt 1, .pInt 2] })],
    primary_key := none }

/-- The snapshot `from_tables [cexTupleTable]` produces. -/
def cexTupleSnapshot : SchemaSnapshot :=
  ⟨[("point", ⟨"point",
    [("coords", ⟨"coords", "builtins.str", false, false, false,
      .pTuple [.pInt 1, .pInt 2], false⟩)], none⟩)], "1.0"⟩

/-- What `from_json (to_json cexTupleSnapshot)` actually returns: the tuple
default has become a list. -/
def cexTupleSnapshotLossy : SchemaSnapshot :=
  ⟨[("point", ⟨"point",
    [("coords", ⟨"coords", "builtins.str", false, false, false,
      .pList [.pInt 1, .pInt 2], false⟩)], none⟩)], "1.0"⟩

/-- The JSON document `to_json` produces for `cexTupleSnapshot`: the tuple
default appears as a JSON array. -/
def cexTupleJson : Json :=
  .jObj [("tables", .jObj [("point", .jObj [("name", .jStr "point"),
    ("columns", .jObj [("coords", .jObj [("name", .jStr "coords"),
      ("python_type", .jStr "builtins.str"), ("primary_key", .jBool false),
      ("unique", .jBool false), ("nullable", .jBool false),
      ("default", .jArr [.jInt 1, .jInt 2]),
      ("default_factory", .jBool false)])]),
    ("primary_key", .jNull)])]), ("version", .jStr "1.0")]

/-! ### Character-level facts about decimal printing -/

theorem data_append (s t : String) : (s ++ t).data = s.data ++ t.data := rfl

theorem digitChar_isDigit {m : Nat} (h : m < 10) : (Nat.digitChar m).isDigit = true := by
  have h10 : m = 0 ∨ m = 1 ∨ m = 2 ∨ m = 3 ∨ m = 4 ∨ m = 5 ∨ m = 6 ∨ m = 7 ∨ m = 8 ∨
      m = 9 := by omega
  rcases h10 with rfl | rfl | rfl | rfl | rfl | rfl | rfl | rfl | rfl | rfl <;> decide

theorem toDigitsCore_digits :
    ∀ (fuel n : Nat) (ds : List Char), (∀ c ∈ ds, c.isDigit = true) →
      ∀ c ∈ Nat.toDigitsCore 10 fuel n ds, c.isDigit = true
  | 0, _, _, h => by
    intro c hc
    rw [Nat.toDigitsCore] at hc
    exact h c hc
  | fuel + 1, n, ds, h => by
    have hd : (Nat.digitChar (n % 10)).isDigit = true :=
      digitChar_isDigit (Nat.mod_lt _ (by omega))
    have h' : ∀ c ∈ Nat.digitChar (n % 10) :: ds, c.isDigit = true := by
      intro c hc
      rcases List.mem_cons.mp hc with rfl | hc
      · exact hd
      · exact h c hc
    intro c hc
    rw [Nat.toDigitsCore] at hc
    split at hc
    · exact h' c hc
    · exact toDigitsCore_digits fuel (n / 10) _ h' c hc

theorem repr_digits (n : Nat) : ∀ c ∈ (Nat.repr n).data, c.isDigit = true := by
  intro c hc
  exact toDigitsCore_digits (n + 1) n [] (by simp) c hc

theorem repr_count_zero (n : Nat) {x : Char} (hx : x.isDigit = false) :
    (Nat.repr n).data.count x = 0 := by
  rw [List.count_eq_zero]
  intro hm
  have := repr_digits n x hm
  rw [this] at hx
  cases hx

/-! ## Placeholder counting (claim C1) -/

theorem count_marker_of_clean {s : String} (h : cleanStr s = true) (d : Dialect) :
    s.data.count (markerChar d) = 0 := by
  rw [List.count_eq_zero]
  intro hm
  have h2 := List.all_eq_true.mp h _ hm
  cases d <;> simp_all [markerChar]

theorem count_marker_digit_zero (n : Nat) (d : Dialect) :
    (Nat.repr n).data.count (markerChar d) = 0 := by
  apply repr_count_zero
  cases d <;> decide

theorem count_dollar_repr (n : Nat) : (Nat.repr n).data.count '$' = 0 :=
  repr_count_zero n (by decide)

theorem _next_placeholder_spec (cc : ConditionCompiler) :
    cc._next_placeholder.2.sql_dialect = cc.sql_dialect ∧
    cc._next_placeholder.2.parameters = cc.parameters ∧
    cc._next_placeholder.2.param_counter = cc.param_counter + pgInc cc.sql_dialect 1 ∧
    cc._next_placeholder.1.data.count (markerChar cc.sql_dialect) = 1 := by
  rcases cc with ⟨d, ps, k⟩
  cases d
  · refine ⟨rfl, rfl, rfl, ?_⟩
    show ("$" ++ Nat.repr (k + 1)).data.count '$' = 1
    rw [data_append, List.count_append, count_dollar_repr]
    rfl
  · exact ⟨rfl, rfl, rfl, rfl⟩
  · exact ⟨rfl, rfl, rfl, rfl⟩

theorem _placeholders_spec :
    ∀ (n : Nat) (cc : ConditionCompiler),
      (cc._placeholders n).1.length = n ∧
      (cc._placeholders n).2.sql_dialect = cc.sql_dialect ∧
      (cc._placeholders n).2.parameters = cc.parameters ∧
      (cc._placeholders n).2.param_counter = cc.param_counter + pgInc cc.sql_dialect n ∧
      ∀ p ∈ (cc._placeholders n).1, p.data.count (markerChar cc.sql_dialect) = 1
  | 0, cc => by
    refine ⟨rfl, rfl, rfl, ?_, by simp [ConditionCompiler._placeholders]⟩
    cases cc.sql_dialect <;> simp [pgInc, ConditionCompiler._placeholders]
  | n + 1, cc => by
    obtain ⟨hd, hp, hk, hm⟩ := _next_placeholder_spec cc
    obtain ⟨ih1, ih2, ih3, ih4, ih5⟩ := _placeholders_spec n cc._next_placeholder.2
    refine ⟨?_, ?_, ?_, ?_, ?_⟩
    · simp [ConditionCompiler._placeholders, ih1]
    · simpa [ConditionCompiler._placeholders, hd] using ih2
    · simp [ConditionCompiler._placeholders, ih3, hp]
    · simp only [ConditionCompiler._placeholders, ih4, hd, hk]
      cases cc.sql_dialect
      · simp only [pgInc]
        omega
      · simp [pgInc]
      · simp [pgInc]
    · intro p hmem
      simp only [ConditionCompiler._placeholders, List.mem_cons] at hmem
      rcases hmem with rfl | hmem
      · exact hm
      · have := ih5 p hmem
        rwa [hd] at this

theorem strJoin_count_sum {m : Char} {sep : String} (hsep : sep.data.count m = 0) :
    ∀ l : List String, (strJoin sep l).data.count m =
      (l.map (fun s => s.data.count m)).sum
  | [] => by simp [strJoin]
  | [s] => by simp [strJoin]
  | s :: s2 :: rest => by
    have ih := strJoin_count_sum hsep (s2 :: rest)
    show ((s ++ sep ++ strJoin sep (s2 :: rest)).data.count m = _)
    rw [data_append, data_append, List.count_append, List.count_append, hsep, ih]
    simp

theorem sum_map_ones {α : Type} (f : α → Nat) :
    ∀ l : List α, (∀ x ∈ l, f x = 1) → (l.map f).sum = l.length
  | [], _ => rfl
  | x :: rest, h => by
    have ih := sum_map_ones f rest (fun y hy => h y (List.mem_cons_of_mem x hy))
    rw [List.map_cons, List.sum_cons, h x (List.mem_cons_self x rest), ih,
      List.length_cons]
    omega

theorem pgInc_zero (d : Dialect) : pgInc d 0 = 0 := by
  cases d <;> rfl

theorem count_wrap_paren (t : String) (m : Char) (hm : m ≠ '(' ∧ m ≠ ')') :
    ("(" ++ t ++ ")").data.count m = t.data.count m := by
  rw [data_append, data_append, List.count_append, List.count_append]
  have h1 : ("(" : String).data.count m = 0 := by
    rw [List.count_eq_zero]
    intro hmem
    simp only [show ("(" : String).data = ['('] from rfl, List.mem_singleton] at hmem
    exact hm.1 hmem
  have h2 : (")" : String).data.count m = 0 := by
    rw [List.count_eq_zero]
    intro hmem
    simp only [show (")" : String).data = [')'] from rfl, List.mem_singleton] at hmem
    exact hm.2 hmem
  omega

theorem marker_ne_paren (d : Dialect) : markerChar d ≠ '(' ∧ markerChar d ≠ ')' := by
  cases d <;> exact ⟨by decide, by decide⟩

theorem _compile_simple_spec {cc : ConditionCompiler} {col op : String} {v : Value}
    {s : String} {cc' : ConditionCompiler}
    (h : cc._compile_simple col op v = .ok (s, cc')) :
    cc'.sql_dialect = cc.sql_dialect ∧
    cc'.parameters = cc.parameters ++ treeParams (.simple col op v) ∧
    cc'.param_counter = cc.param_counter +
      pgInc cc.sql_dialect (treeParams (.simple col op v)).length ∧
    (cleanStr col = true → cleanStr op = true →
      s.data.count (markerChar cc.sql_dialect) = (treeParams (.simple col op v)).length) := by
  simp only [ConditionCompiler._compile_simple] at h
  split_ifs at h with h1 h2 h3
  · -- IS NULL branch
    simp only [Except.ok.injEq, Prod.mk.injEq] at h
    obtain ⟨rfl, rfl⟩ := h
    refine ⟨rfl, by simp [treeParams, h1], by simp [treeParams, h1, pgInc_zero], ?_⟩
    intro hcol _
    rw [data_append, List.count_append, count_marker_of_clean hcol,
      count_marker_of_clean (s := " IS NULL") (by decide)]
    simp [treeParams, h1]
  · -- IS NOT NULL branch
    simp only [Except.ok.injEq, Prod.mk.injEq] at h
    obtain ⟨rfl, rfl⟩ := h
    refine ⟨rfl, by simp [treeParams, h1, h2], by simp [treeParams, h1, h2, pgInc_zero], ?_⟩
    intro hcol _
    rw [data_append, List.count_append, count_marker_of_clean hcol,
      count_marker_of_clean (s := " IS NOT NULL") (by decide)]
    simp [treeParams, h1, h2]
  · -- IN branch
    subst h3
    cases v with
    | vList vs =>
        simp only [Except.ok.injEq, Prod.mk.injEq] at h
        obtain ⟨rfl, rfl⟩ := h
        obtain ⟨hlen, hd, hp, hk, hcount⟩ := _placeholders_spec vs.length cc
        have htp : treeParams (.simple col "IN" (.vList vs)) = vs := by
          simp [treeParams]
        refine ⟨hd, by simp [htp, hp], by simp [htp, hk], ?_⟩
        intro hcol _
        rw [htp, data_append, data_append, data_append, List.count_append,
          List.count_append, List.count_append, count_marker_of_clean hcol,
          count_marker_of_clean (s := " IN (") (by decide),
          count_marker_of_clean (s := ")") (by decide),
          strJoin_count_sum (count_marker_of_clean (s := ", ") (by decide) _),
          sum_map_ones _ _ hcount, hlen]
        omega
    | vNone => exact Except.noConfusion h
    | vBool b => exact Except.noConfusion h
    | vInt n => exact Except.noConfusion h
    | vStr t => exact Except.noConfusion h
  · -- regular comparison operators
    simp only [Except.ok.injEq, Prod.mk.injEq] at h
    obtain ⟨rfl, rfl⟩ := h
    obtain ⟨hd, hp, hk, hm⟩ := _next_placeholder_spec cc
    have htp : treeParams (.simple col op v) = [v] := by
      simp [treeParams, h1, h2, h3]
    refine ⟨hd, by simp [htp, hp], by simp [htp, hk], ?_⟩
    intro hcol hop
    rw [htp, data_append, data_append, data_append, data_append,
      List.count_append, List.count_append, List.count_append, List.count_append,
      count_marker_of_clean hcol, count_marker_of_clean hop,
      count_marker_of_clean (s := " ") (by decide), hm]
    simp

mutual

theorem compile_spec :
    ∀ (condition : Condition) (cc : ConditionCompiler) (s : String)
      (cc' : ConditionCompiler),
      cc.compile condition = .ok (s, cc') →
      cc'.sql_dialect = cc.sql_dialect ∧
      cc'.parameters = cc.parameters ++ treeParams condition ∧
      cc'.param_counter = cc.param_counter +
        pgInc cc.sql_dialect (treeParams condition).length ∧
      (cleanCond condition = true →
        s.data.count (markerChar cc.sql_dialect) = (treeParams condition).length)
  | .simple col op v, cc, s, cc', h => by
      simp only [ConditionCompiler.compile] at h
      obtain ⟨a, b, c, d⟩ := _compile_simple_spec h
      refine ⟨a, b, c, fun hcl => ?_⟩
      simp only [cleanCond, Bool.and_eq_true] at hcl
      exact d hcl.1 hcl.2
  | .compound conds op, cc, s, cc', h => by
      simp only [ConditionCompiler.compile] at h
      cases hp : ConditionCompiler._compile_parts cc conds with
      | error e => rw [hp] at h; exact Except.noConfusion h
      | ok pr =>
          obtain ⟨parts, cc2⟩ := pr
          rw [hp] at h
          simp only [Except.ok.injEq, Prod.mk.injEq] at h
          obtain ⟨rfl, rfl⟩ := h
          obtain ⟨a, b, c, d⟩ := compile_parts_spec conds cc parts cc2 hp
          refine ⟨a, by simpa [treeParams] using b, by simpa [treeParams] using c,
            fun hcl => ?_⟩
          simp only [cleanCond, Bool.and_eq_true] at hcl
          rw [strJoin_count_sum, d hcl.2]
          · simp [treeParams]
          · rw [data_append, data_append, List.count_append, List.count_append,
              count_marker_of_clean hcl.1,
              count_marker_of_clean (s := " ") (by decide)]

theorem compile_parts_spec :
    ∀ (conds : List Condition) (cc : ConditionCompiler) (ss : List String)
      (cc' : ConditionCompiler),
      ConditionCompiler._compile_parts cc conds = .ok (ss, cc') →
      cc'.sql_dialect = cc.sql_dialect ∧
      cc'.parameters = cc.parameters ++ treeParamsList conds ∧
      cc'.param_counter = cc.param_counter +
        pgInc cc.sql_dialect (treeParamsList conds).length ∧
      (cleanCondList conds = true →
        (ss.map (fun t => t.data.count (markerChar cc.sql_dialect))).sum =
          (treeParamsList conds).length)
  | [], cc, ss, cc', h => by
      simp only [ConditionCompiler._compile_parts, Except.ok.injEq, Prod.mk.injEq] at h
      obtain ⟨rfl, rfl⟩ := h
      exact ⟨rfl, by simp [treeParamsList], by simp [treeParamsList, pgInc_zero],
        by simp [treeParamsList]⟩
  | c :: rest, cc, ss, cc', h => by
      simp only [ConditionCompiler._compile_parts] at h
      cases h1 : ConditionCompiler.compile cc c with
      | error e =>
          simp only [h1] at h
          exact Except.noConfusion h
      | ok pr1 =>
          obtain ⟨s1, cc1⟩ := pr1
          simp only [h1] at h
          cases h2 : ConditionCompiler._compile_parts cc1 rest with
          | error e =>
              simp only [h2] at h
              exact Except.noConfusion h
          | ok pr2 =>
              obtain ⟨ss2, cc2⟩ := pr2
              simp only [h2, Except.ok.injEq, Prod.mk.injEq] at h
              obtain ⟨rfl, rfl⟩ := h
              obtain ⟨a1, b1, c1, d1⟩ := compile_spec c cc s1 cc1 h1
              obtain ⟨a2, b2, c2, d2⟩ := compile_parts_spec rest cc1 ss2 cc2 h2
              refine ⟨a2.trans a1, ?_, ?_, fun hcl => ?_⟩
              · rw [b2, b1, treeParamsList, List.append_assoc]
              · rw [c2, c1, a1, treeParamsList]
                cases cc.sql_dialect
                · simp only [pgInc, List.length_append]
                  omega
                · simp [pgInc]
                · simp [pgInc]
              · simp only [cleanCondList, Bool.and_eq_true] at hcl
                simp only [List.map_cons, List.sum_cons, treeParamsList,
                  List.length_append]
                rw [count_wrap_paren _ _ (marker_ne_paren _), d1 hcl.1]
                have := d2 hcl.2
                rw [a1] at this
                rw [this]

end

/-! ## Claim C1 -/

/-- C1: compiling any condition tree with a fresh `ConditionCompiler` under any
of the three dialects yields a fragment whose placeholder count equals the
length of the compiler's accumulated parameter list, and that parameter list
is exactly the tree's parameters in depth-first left-to-right evaluation
order.  (Column and operator names are assumed free of the three marker
characters `$ ? %`, so that text-level counting sees exactly the emitted
placeholders.) -/
theorem C1_placeholder_parameter_alignment (d : Dialect) (condition : Condition)
    (s : String) (cc' : ConditionCompiler)
    (hclean : cleanCond condition = true)
    (h : ConditionCompiler.compile { sql_dialect := d } condition = .ok (s, cc')) :
    countPlaceholders d s = cc'.parameters.length ∧
    cc'.parameters = treeParams condition := by
  obtain ⟨hdial, hparams, _, hcount⟩ :=
    compile_spec condition { sql_dialect := d } s cc' h
  simp only [List.nil_append] at hparams
  exact ⟨by rw [countPlaceholders, hcount hclean, hparams], hparams⟩

theorem C1_placeholder_parameter_alignment_witness :
    cleanCond demoCond = true ∧
    (countPlaceholders .postgresql "(a = $1) AND (b IN ($2, $3))" =
        demoCompiled.parameters.length ∧
      demoCompiled.parameters = treeParams demoCond) :=
  ⟨rfl, C1_placeholder_parameter_alignment .postgresql demoCond
    "(a = $1) AND (b IN ($2, $3))" demoCompiled rfl rfl⟩

/-! ## Claim C2 -/

/-- C2: for simple conditions `A`, `B`, `C`, composing `(A AND B) AND C`
flattens into a single 3-child AND compound, `(A AND B) OR C` nests as a
2-child OR compound whose first child is the original 2-child AND node, and
composing across different boolean operators or compound-with-compound always
nests rather than flattens. -/
theorem C2_compound_flattening (n1 o1 n2 o2 n3 o3 : String) (v1 v2 v3 : Value) :
    (condAnd (condAnd (.simple n1 o1 v1) (.simple n2 o2 v2)) (.simple n3 o3 v3) =
      .compound [.simple n1 o1 v1, .simple n2 o2 v2, .simple n3 o3 v3] "AND") ∧
    (condOr (condAnd (.simple n1 o1 v1) (.simple n2 o2 v2)) (.simple n3 o3 v3) =
      .compound [.compound [.simple n1 o1 v1, .simple n2 o2 v2] "AND",
        .simple n3 o3 v3] "OR") ∧
    (∀ (cs1 : List Condition) (op1 : String) (cs2 : List Condition) (op2 : String),
      condAnd (.compound cs1 op1) (.compound cs2 op2) =
        .compound [.compound cs1 op1, .compound cs2 op2] "AND") ∧
    (∀ (cs1 : List Condition) (op1 : String) (cs2 : List Condition) (op2 : String),
      condOr (.compound cs1 op1) (.compound cs2 op2) =
        .compound [.compound cs1 op1, .compound cs2 op2] "OR") ∧
    (∀ (cs1 : List Condition) (c o : String) (v : Value),
      condOr (.compound cs1 "AND") (.simple c o v) =
        .compound [.compound cs1 "AND", .simple c o v] "OR") ∧
    (∀ (cs1 : List Condition) (c o : String) (v : Value),
      condAnd (.compound cs1 "OR") (.simple c o v) =
        .compound [.compound cs1 "OR", .simple c o v] "AND") := by
  refine ⟨rfl, rfl, ?_, ?_, fun cs1 c o v => rfl, fun cs1 c o v => rfl⟩
  · intro cs1 op1 cs2 op2
    show compoundAnd cs1 op1 (.compound cs2 op2) = _
    unfold compoundAnd
    split
    · rfl
    · rfl
  · intro cs1 op1 cs2 op2
    show compoundOr cs1 op1 (.compound cs2 op2) = _
    unfold compoundOr
    split
    · rfl
    · rfl

/-! ## Claim C3: no `IN ()` ever appears in compiled text -/

theorem hasSub_x_mem {x y : Char} {l : List Char} (h : hasSub [x, y] l) : x ∈ l := by
  obtain ⟨u, v, rfl⟩ := h
  simp

theorem hasSub_y_mem {x y : Char} {l : List Char} (h : hasSub [x, y] l) : y ∈ l := by
  obtain ⟨u, v, rfl⟩ := h
  simp

theorem mem_of_head?_eq {α : Type} {l : List α} {x : α} (h : l.head? = some x) :
    x ∈ l := by
  cases l with
  | nil => cases h
  | cons a t =>
      rw [List.head?_cons, Option.some.injEq] at h
      exact h ▸ List.mem_cons_self a t

theorem mem_of_getLast?_eq {α : Type} {l : List α} {x : α}
    (h : l.getLast? = some x) : x ∈ l := by
  obtain ⟨hne, heq⟩ := List.mem_getLast?_eq_getLast (by simpa using h)
  exact heq ▸ List.getLast_mem hne

theorem hasSub_pair_append {x y : Char} :
    ∀ {a b : List Char}, hasSub [x, y] (a ++ b) →
      hasSub [x, y] a ∨ hasSub [x, y] b ∨
        (a.getLast? = some x ∧ b.head? = some y)
  | [], b, h => Or.inr (Or.inl (by simpa using h))
  | c :: a', b, h => by
      obtain ⟨u, v, he⟩ := h
      cases u with
      | nil =>
          simp only [List.nil_append, List.cons_append] at he
          injection he with hcx he2
          subst hcx
          cases a' with
          | nil =>
              simp only [List.nil_append] at he2
              exact Or.inr (Or.inr ⟨rfl, by rw [he2]; rfl⟩)
          | cons c2 a'' =>
              simp only [List.cons_append] at he2
              injection he2 with hcy _
              subst hcy
              exact Or.inl ⟨[], a'', by simp⟩
      | cons u0 u' =>
          simp only [List.cons_append] at he
          injection he with _ he2
          rcases hasSub_pair_append (a := a') (b := b) ⟨u', v, he2⟩ with
            hsub | hsub | ⟨hl, hh⟩
          · obtain ⟨u2, v2, rfl⟩ := hsub
            exact Or.inl ⟨c :: u2, v2, by simp⟩
          · exact Or.inr (Or.inl hsub)
          · refine Or.inr (Or.inr ⟨?_, hh⟩)
            cases a' with
            | nil => cases hl
            | cons d t => rw [List.getLast?_cons_cons]; exact hl

theorem noPr_append {a b : List Char} (ha : noPr a) (hb : noPr b)
    (hx : ¬(a.getLast? = some '(' ∧ b.head? = some ')')) : noPr (a ++ b) := by
  intro h
  rcases hasSub_pair_append h with h | h | h
  exacts [ha h, hb h, hx h]

theorem noPr_singleton (c : Char) : noPr [c] := by
  rintro ⟨u, v, h⟩
  have := congrArg List.length h
  simp only [List.length_append, List.length_cons, List.length_nil,
    List.length_singleton] at this
  omega

theorem noPr_of_parenFree {l : List Char} (h : parenFree l) : noPr l :=
  fun hs => (h _ (hasSub_x_mem hs)).1 rfl

theorem noPr_of_no_rparen {l : List Char} (h : ∀ c ∈ l, c ≠ ')') : noPr l :=
  fun hs => h _ (hasSub_y_mem hs) rfl

theorem head?_ne_rparen_of_parenFree {l : List Char} (h : parenFree l) :
    l.head? ≠ some ')' :=
  fun he => (h _ (mem_of_head?_eq he)).2 rfl

theorem getLast?_ne_lparen_of_parenFree {l : List Char} (h : parenFree l) :
    l.getLast? ≠ some '(' :=
  fun he => (h _ (mem_of_getLast?_eq he)).1 rfl

theorem parenFree_append {a b : List Char} (ha : parenFree a)
    (hb : parenFree b) : parenFree (a ++ b) := by
  intro c hc
  rcases List.mem_append.mp hc with h | h
  exacts [ha c h, hb c h]

theorem append_ne_nil_r {α : Type} {a b : List α} (hb : b ≠ []) : a ++ b ≠ [] :=
  fun h => hb (List.append_eq_nil.mp h).2

theorem fragOk_of_parenFree {l : List Char} (h : parenFree l) (hne : l ≠ []) :
    FragOk l :=
  ⟨noPr_of_parenFree h, hne, getLast?_ne_lparen_of_parenFree h,
    head?_ne_rparen_of_parenFree h⟩

theorem ne_of_isDigit {c x : Char} (h : c.isDigit = true)
    (hx : x.isDigit = false) : c ≠ x := by
  intro he
  rw [he, hx] at h
  cases h

theorem _next_placeholder_parenFree (cc : ConditionCompiler) :
    parenFree cc._next_placeholder.1.data ∧ cc._next_placeholder.1.data ≠ [] := by
  rcases cc with ⟨d, ps, k⟩
  cases d
  · constructor
    · intro c hc
      rcases List.mem_append.mp hc with h | h
      · simp only [show ("$" : String).data = ['$'] from rfl,
          List.mem_singleton] at h
        subst h
        exact ⟨by decide, by decide⟩
      · have := repr_digits (k + 1) c h
        exact ⟨ne_of_isDigit this (by decide), ne_of_isDigit this (by decide)⟩
    · intro hh
      exact List.noConfusion (show '$' :: (Nat.repr (k + 1)).data = [] from hh)
  · refine ⟨?_, show ("?" : String).data ≠ [] by decide⟩
    show parenFree ("?" : String).data
    unfold parenFree
    decide
  · refine ⟨?_, show ("%s" : String).data ≠ [] by decide⟩
    show parenFree ("%s" : String).data
    unfold parenFree
    decide

theorem parenFree_lit (s : String) (h : ∀ c ∈ s.data, c ≠ '(' ∧ c ≠ ')') :
    parenFree s.data := h

theorem ne_nil_of_head? {α : Type} {l : List α} {x : α} (h : l.head? = some x) :
    l ≠ [] := by
  cases l with
  | nil => cases h
  | cons a t => simp

theorem append_ne_nil_l {α : Type} {a b : List α} (ha : a ≠ []) : a ++ b ≠ [] :=
  fun h => ha (List.append_eq_nil.mp h).1

theorem getLast?_append_ne_lparen {a b : List Char} (ha : a.getLast? ≠ some '(')
    (hb : b.getLast? ≠ some '(') : (a ++ b).getLast? ≠ some '(' := by
  cases b with
  | nil => simpa using ha
  | cons c cs =>
      rw [List.getLast?_append_of_ne_nil _ (List.cons_ne_nil c cs)]
      exact hb

theorem head?_ne_rparen_append {a b : List Char} (ha : parenFree a)
    (hb : b.head? ≠ some ')') : (a ++ b).head? ≠ some ')' := by
  cases a with
  | nil => simpa using hb
  | cons c t =>
      rw [List.head?_append_of_ne_nil _ (List.cons_ne_nil c t)]
      exact head?_ne_rparen_of_parenFree ha

theorem parenFree_of_noParenStr {s : String} (h : noParenStr s = true) :
    parenFree s.data := by
  intro c hc
  have h2 := List.all_eq_true.mp h _ hc
  simp only [Bool.and_eq_true, Bool.not_eq_true', beq_eq_false_iff_ne, ne_eq] at h2
  exact h2

theorem _placeholders_parenFree :
    ∀ (n : Nat) (cc : ConditionCompiler), ∀ p ∈ (cc._placeholders n).1,
      parenFree p.data ∧ p.data ≠ []
  | 0, cc => by
      intro p hp
      simp [ConditionCompiler._placeholders] at hp
  | n + 1, cc => by
      intro p hp
      simp only [ConditionCompiler._placeholders, List.mem_cons] at hp
      rcases hp with rfl | hp
      · exact _next_placeholder_parenFree cc
      · exact _placeholders_parenFree n _ p hp

theorem strJoin_parenFree {sep : String} (hsep : parenFree sep.data) :
    ∀ l : List String, (∀ s ∈ l, parenFree s.data) →
      parenFree (strJoin sep l).data
  | [], _ => by
      intro c hc
      exact absurd hc (List.not_mem_nil c)
  | [s], h => h s (by simp)
  | s :: s2 :: rest, h => by
      have ih := strJoin_parenFree hsep (s2 :: rest)
        (fun t ht => h t (List.mem_cons_of_mem _ ht))
      show parenFree (s ++ sep ++ strJoin sep (s2 :: rest)).data
      rw [data_append, data_append]
      exact parenFree_append (parenFree_append (h s (by simp)) hsep) ih

theorem strJoin_cons_ex (sep : String) (s : String) (rest : List String) :
    ∃ t, (strJoin sep (s :: rest)).data = s.data ++ t := by
  cases rest with
  | nil => exact ⟨[], by simp [strJoin]⟩
  | cons s2 r =>
      exact ⟨sep.data ++ (strJoin sep (s2 :: r)).data,
        by simp [strJoin, data_append, List.append_assoc]⟩

theorem strJoin_parts_ok {sep : String} (hsep : parenFree sep.data) :
    ∀ l : List String, (∀ s ∈ l, PartOk s.data) → l ≠ [] →
      PartOk (strJoin sep l).data
  | [], _, hne => absurd rfl hne
  | [s], h, _ => h s (by simp)
  | s :: s2 :: rest, h, _ => by
      have ih := strJoin_parts_ok hsep (s2 :: rest)
        (fun t ht => h t (List.mem_cons_of_mem _ ht)) (by simp)
      have hs := h s (by simp)
      have hsne : s.data ≠ [] := ne_nil_of_head? hs.head_eq
      have hJne : (strJoin sep (s2 :: rest)).data ≠ [] := ne_nil_of_head? ih.head_eq
      have hAlast : (s.data ++ sep.data).getLast? ≠ some '(' :=
        getLast?_append_ne_lparen (by rw [hs.last_eq]; decide)
          (getLast?_ne_lparen_of_parenFree hsep)
      show PartOk (s ++ sep ++ strJoin sep (s2 :: rest)).data
      rw [data_append, data_append]
      refine ⟨?_, ?_, ?_⟩
      · refine noPr_append (noPr_append hs.noPair (noPr_of_parenFree hsep) ?_)
          ih.noPair ?_
        · rintro ⟨h1, _⟩
          rw [hs.last_eq] at h1
          cases h1
        · rintro ⟨h1, _⟩
          exact hAlast h1
      · rw [List.head?_append_of_ne_nil _ (append_ne_nil_l hsne),
          List.head?_append_of_ne_nil _ hsne]
        exact hs.head_eq
      · rw [List.getLast?_append_of_ne_nil _ hJne]
        exact ih.last_eq

theorem partOk_wrap {s1 : String} (fo : FragOk s1.data) :
    PartOk (("(" ++ s1 ++ ")") : String).data := by
  have hpre : ("(" ++ s1 ++ ")").data = (['('] ++ s1.data) ++ [')'] := rfl
  rw [hpre]
  have hinner : (['('] ++ s1.data).getLast? ≠ some '(' := by
    rw [List.getLast?_append_of_ne_nil _ fo.ne_nil]
    exact fo.last_ne
  refine ⟨?_, ?_, ?_⟩
  · refine noPr_append (noPr_append (noPr_singleton '(') fo.noPair ?_)
      (noPr_singleton ')') ?_
    · rintro ⟨_, h2⟩
      exact fo.head_ne h2
    · rintro ⟨h1, _⟩
      exact hinner h1
  · rw [List.head?_append_of_ne_nil _ (append_ne_nil_l (by simp))]
    rfl
  · rw [List.getLast?_append_of_ne_nil _ (by simp)]
    rfl

mutual

theorem compile_fragOk :
    ∀ (c : Condition) (cc : ConditionCompiler) (s : String)
      (cc' : ConditionCompiler),
      wellFormedCond c = true → cc.compile c = .ok (s, cc') → FragOk s.data
  | .simple col op v, cc, s, cc', hwf, h => by
      simp only [ConditionCompiler.compile] at h
      simp only [wellFormedCond, Bool.and_eq_true] at hwf
      obtain ⟨⟨hcol, hops⟩, hin⟩ := hwf
      have hcolf : parenFree col.data := parenFree_of_noParenStr hcol
      have hopf : parenFree op.data := by
        simp only [validOp, Bool.or_eq_true, decide_eq_true_eq] at hops
        rcases hops with
          ((((((((h1 | h1) | h1) | h1) | h1) | h1) | h1) | h1) | h1) | h1
        all_goals (subst h1; exact parenFree_lit _ (by decide))
      simp only [ConditionCompiler._compile_simple] at h
      split_ifs at h with h1 h2 h3
      · -- IS NULL branch: no parenthesis appears at all
        simp only [Except.ok.injEq, Prod.mk.injEq] at h
        obtain ⟨rfl, rfl⟩ := h
        rw [data_append]
        exact fragOk_of_parenFree
          (parenFree_append hcolf (parenFree_lit _ (by decide)))
          (append_ne_nil_r (by decide))
      · -- IS NOT NULL branch
        simp only [Except.ok.injEq, Prod.mk.injEq] at h
        obtain ⟨rfl, rfl⟩ := h
        rw [data_append]
        exact fragOk_of_parenFree
          (parenFree_append hcolf (parenFree_lit _ (by decide)))
          (append_ne_nil_r (by decide))
      · -- IN branch: the parentheses enclose at least one placeholder
        subst h3
        cases v with
        | vList vs =>
            simp only [Except.ok.injEq, Prod.mk.injEq] at h
            obtain ⟨rfl, rfl⟩ := h
            simp only [if_pos rfl, Bool.not_eq_true'] at hin
            have hvs : vs ≠ [] := by
              intro hh
              rw [hh] at hin
              cases hin
            have hlen := (_placeholders_spec vs.length cc).1
            have hpf : ∀ p ∈ (cc._placeholders vs.length).1,
                parenFree p.data ∧ p.data ≠ [] :=
              fun p hp => _placeholders_parenFree vs.length cc p hp
            have hphsne : (cc._placeholders vs.length).1 ≠ [] := by
              intro hh
              rw [hh] at hlen
              exact hvs (List.length_eq_zero.mp hlen.symm)
            have hJfree : parenFree (strJoin ", " (cc._placeholders vs.length).1).data :=
              strJoin_parenFree (parenFree_lit _ (by decide)) _
                (fun p hp => (hpf p hp).1)
            have hJne : (strJoin ", " (cc._placeholders vs.length).1).data ≠ [] := by
              obtain ⟨p0, ps, hcons⟩ := List.exists_cons_of_ne_nil hphsne
              rw [hcons]
              obtain ⟨t, ht⟩ := strJoin_cons_ex ", " p0 ps
              rw [ht]
              exact append_ne_nil_l (hpf p0 (by rw [hcons]; simp)).2
            refine ⟨?_, ?_, ?_, ?_⟩
            · rw [data_append, data_append, data_append]
              refine noPr_append (noPr_append ?_ (noPr_of_parenFree hJfree) ?_)
                (noPr_singleton ')') ?_
              · apply noPr_of_no_rparen
                intro ch hch
                rcases List.mem_append.mp hch with hm | hm
                · exact (hcolf ch hm).2
                · have hlit : ∀ x ∈ (" IN (" : String).data, x ≠ ')' := by decide
                  exact hlit ch hm
              · rintro ⟨_, hh2⟩
                exact head?_ne_rparen_of_parenFree hJfree hh2
              · rintro ⟨hh1, _⟩
                rw [List.getLast?_append_of_ne_nil _ hJne] at hh1
                exact getLast?_ne_lparen_of_parenFree hJfree hh1
            · rw [data_append]
              exact append_ne_nil_r (by decide)
            · rw [data_append,
                List.getLast?_append_of_ne_nil _ (show (")" : String).data ≠ [] by decide)]
              decide
            · rw [data_append, data_append, data_append, List.append_assoc,
                List.append_assoc]
              refine head?_ne_rparen_append hcolf ?_
              rw [List.head?_append_of_ne_nil _
                (show (" IN (" : String).data ≠ [] by decide)]
              decide
        | vNone => exact Except.noConfusion h
        | vBool b => exact Except.noConfusion h
        | vInt n => exact Except.noConfusion h
        | vStr t => exact Except.noConfusion h
      · -- regular comparison: no parenthesis appears at all
        simp only [Except.ok.injEq, Prod.mk.injEq] at h
        obtain ⟨rfl, rfl⟩ := h
        obtain ⟨hphf, hphne⟩ := _next_placeholder_parenFree cc
        rw [data_append, data_append, data_append, data_append]
        exact fragOk_of_parenFree
          (parenFree_append (parenFree_append (parenFree_append
            (parenFree_append hcolf (parenFree_lit _ (by decide))) hopf)
            (parenFree_lit _ (by decide))) hphf)
          (append_ne_nil_r hphne)
  | .compound conds op, cc, s, cc', hwf, h => by
      simp only [ConditionCompiler.compile] at h
      simp only [wellFormedCond, Bool.and_eq_true] at hwf
      obtain ⟨⟨hop, hne⟩, hlist⟩ := hwf
      cases hp : ConditionCompiler._compile_parts cc conds with
      | error e =>
          rw [hp] at h
          exact Except.noConfusion h
      | ok pr =>
          obtain ⟨parts, cc2⟩ := pr
          rw [hp] at h
          simp only [Except.ok.injEq, Prod.mk.injEq] at h
          obtain ⟨rfl, rfl⟩ := h
          obtain ⟨hparts, hplen⟩ := compile_parts_fragOk conds cc parts cc2 hlist hp
          have hcne : conds ≠ [] := by
            simp only [Bool.not_eq_true'] at hne
            intro hh
            rw [hh] at hne
            cases hne
          have hpne : parts ≠ [] := by
            intro hh
            rw [hh] at hplen
            exact hcne (List.length_eq_zero.mp hplen.symm)
          have hsepf : parenFree (" " ++ op ++ " ").data := by
            simp only [Bool.or_eq_true, decide_eq_true_eq] at hop
            rcases hop with rfl | rfl
            · exact parenFree_lit _ (by decide)
            · exact parenFree_lit _ (by decide)
          have po := strJoin_parts_ok hsepf parts hparts hpne
          exact ⟨po.noPair, ne_nil_of_head? po.head_eq,
            by rw [po.last_eq]; decide, by rw [po.head_eq]; decide⟩

theorem compile_parts_fragOk :
    ∀ (cs : List Condition) (cc : ConditionCompiler) (ss : List String)
      (cc' : ConditionCompiler),
      wellFormedCondList cs = true →
      ConditionCompiler._compile_parts cc cs = .ok (ss, cc') →
      (∀ t ∈ ss, PartOk t.data) ∧ ss.length = cs.length
  | [], cc, ss, cc', hwf, h => by
      simp only [ConditionCompiler._compile_parts, Except.ok.injEq,
        Prod.mk.injEq] at h
      obtain ⟨rfl, rfl⟩ := h
      exact ⟨fun t ht => absurd ht (List.not_mem_nil t), rfl⟩
  | c :: rest, cc, ss, cc', hwf, h => by
      simp only [wellFormedCondList, Bool.and_eq_true] at hwf
      simp only [ConditionCompiler._compile_parts] at h
      cases h1 : ConditionCompiler.compile cc c with
      | error e =>
          simp only [h1] at h
          exact Except.noConfusion h
      | ok pr1 =>
          obtain ⟨s1, cc1⟩ := pr1
          simp only [h1] at h
          cases h2 : ConditionCompiler._compile_parts cc1 rest with
          | error e =>
              simp only [h2] at h
              exact Except.noConfusion h
          | ok pr2 =>
              obtain ⟨ss2, cc2⟩ := pr2
              simp only [h2, Except.ok.injEq, Prod.mk.injEq] at h
              obtain ⟨rfl, rfl⟩ := h
              have fo := compile_fragOk c cc s1 cc1 hwf.1 h1
              obtain ⟨ih1, ih2⟩ := compile_parts_fragOk rest cc1 ss2 cc2 hwf.2 h2
              refine ⟨?_, by simp [ih2]⟩
              intro t ht
              rcases List.mem_cons.mp ht with rfl | ht
              · exact partOk_wrap fo
              · exact ih1 t ht

end

/-- C3: `ColumnRef.in_` over an empty collection always fails with the
Precondition-Violated (assertion) condition, and for every well-formed
condition tree (operators from the fixed set, `IN` lists non-empty as
`in_` guarantees, `AND`/`OR` compounds, paren-free column names) the
compiled fragment never contains the substring `IN ()` — every emitted `IN`
clause encloses at least one placeholder. -/
theorem C3_no_empty_IN :
    (∀ (col : String) (t : PyType),
      ColumnRef_in col t [] = .error (.assertionError "IN list cannot be empty")) ∧
    (∀ (condition : Condition) (cc : ConditionCompiler) (s : String)
      (cc' : ConditionCompiler), wellFormedCond condition = true →
      cc.compile condition = .ok (s, cc') →
      ¬ hasSub ("IN ()" : String).data s.data) := by
  constructor
  · intro col t
    rfl
  · intro c cc s cc' hwf h hbad
    apply (compile_fragOk c cc s cc' hwf h).noPair
    obtain ⟨u, v, he⟩ := hbad
    refine ⟨u ++ ['I', 'N', ' '], v, ?_⟩
    rw [he]
    simp [List.append_assoc]

theorem C3_no_empty_IN_witness :
    ColumnRef_in "a" PyType.int [] =
      .error (.assertionError "IN list cannot be empty") ∧
    ¬ hasSub ("IN ()" : String).data ("(a = $1) AND (b IN ($2, $3))" : String).data :=
  ⟨C3_no_empty_IN.1 "a" PyType.int,
    C3_no_empty_IN.2 demoCond { sql_dialect := .postgresql }
      "(a = $1) AND (b IN ($2, $3))" demoCompiled rfl rfl⟩

/-! ## Compile totality and failure characterization -/

mutual

theorem compile_total :
    ∀ (c : Condition) (cc : ConditionCompiler), inListsOk c = true →
      ∃ pr, cc.compile c = .ok pr
  | .simple col op v, cc, hok => by
      simp only [ConditionCompiler.compile, ConditionCompiler._compile_simple]
      split_ifs with h1 h2 h3
      · exact ⟨_, rfl⟩
      · exact ⟨_, rfl⟩
      · subst h3
        cases v with
        | vList vs => exact ⟨_, rfl⟩
        | vNone => simp [inListsOk] at hok
        | vBool b => simp [inListsOk] at hok
        | vInt n => simp [inListsOk] at hok
        | vStr t => simp [inListsOk] at hok
      · exact ⟨_, rfl⟩
  | .compound conds op, cc, hok => by
      simp only [ConditionCompiler.compile]
      obtain ⟨pr, hpr⟩ :=
        compile_parts_total conds cc (by simpa [inListsOk] using hok)
      obtain ⟨parts, cc2⟩ := pr
      rw [hpr]
      exact ⟨_, rfl⟩

theorem compile_parts_total :
    ∀ (cs : List Condition) (cc : ConditionCompiler), inListsOkList cs = true →
      ∃ pr, ConditionCompiler._compile_parts cc cs = .ok pr
  | [], cc, _ => ⟨([], cc), by simp [ConditionCompiler._compile_parts]⟩
  | c :: rest, cc, hok => by
      simp only [inListsOkList, Bool.and_eq_true] at hok
      obtain ⟨⟨s1, cc1⟩, h1⟩ := compile_total c cc hok.1
      obtain ⟨⟨ss, cc2⟩, h2⟩ := compile_parts_total rest cc1 hok.2
      exact ⟨(("(" ++ s1 ++ ")") :: ss, cc2),
        by simp only [ConditionCompiler._compile_parts, h1, h2]⟩

end

mutual

theorem compile_fail :
    ∀ (c : Condition) (cc : ConditionCompiler), inListsOk c = false →
      cc.compile c = .error (.assertionError "IN operator requires a list")
  | .simple col op v, cc, hbad => by
      simp only [ConditionCompiler.compile, ConditionCompiler._compile_simple]
      split_ifs with h1 h2 h3
      · subst h1; simp [inListsOk] at hbad
      · subst h2; simp [inListsOk] at hbad
      · subst h3
        cases v with
        | vList vs => simp [inListsOk] at hbad
        | vNone => rfl
        | vBool b => rfl
        | vInt n => rfl
        | vStr t => rfl
      · simp [inListsOk, h3] at hbad
  | .compound conds op, cc, hbad => by
      simp only [ConditionCompiler.compile]
      rw [compile_parts_fail conds cc (by simpa [inListsOk] using hbad)]

theorem compile_parts_fail :
    ∀ (cs : List Condition) (cc : ConditionCompiler), inListsOkList cs = false →
      ConditionCompiler._compile_parts cc cs =
        .error (.assertionError "IN operator requires a list")
  | [], _, hbad => by simp [inListsOkList] at hbad
  | c :: rest, cc, hbad => by
      simp only [inListsOkList, Bool.and_eq_false_iff] at hbad
      cases hc : inListsOk c with
      | false =>
          simp only [ConditionCompiler._compile_parts, compile_fail c cc hc]
      | true =>
          have hrest : inListsOkList rest = false := by
            rcases hbad with h | h
            · rw [hc] at h; cases h
            · exact h
          obtain ⟨⟨s1, cc1⟩, h1⟩ := compile_total c cc hc
          simp only [ConditionCompiler._compile_parts, h1,
            compile_parts_fail rest cc1 hrest]

end

/-! ## Claim C4 -/

/-- C4: `DeleteQueryBuilder.build` on a builder whose `where()` was never
called always fails with the safety-labeled assertion, regardless of
dialect and registry; with a WHERE clause set (and no registry attached),
`build()` succeeds whenever the condition compiles (its `IN` values are
lists, as `ColumnRef.in_` guarantees). -/
theorem C4_delete_requires_where (b : DeleteQueryBuilder) :
    (b.where_clause = none →
      b.build = .error (.assertionError
        "DELETE requires WHERE clause (safety: no unrestricted deletes)")) ∧
    (∀ w, b.where_clause = some w → b.registry = none →
      inListsOk w.condition = true → ∃ stmt, b.build = .ok stmt) := by
  constructor
  · intro hw
    simp only [DeleteQueryBuilder.build, hw]
  · intro w hw hreg hok
    obtain ⟨⟨s1, cc1⟩, h1⟩ := compile_total w.condition b._compiler hok
    refine ⟨⟨"DELETE FROM " ++ b.table_name ++ "\n" ++ ("WHERE " ++ s1),
      cc1.parameters⟩, ?_⟩
    simp only [DeleteQueryBuilder.build, hw, hreg, WhereClause.to_sql, h1]

theorem C4_delete_requires_where_witness :
    demoDelete.where_clause = none ∧
    demoDelete.build = .error (.assertionError
      "DELETE requires WHERE clause (safety: no unrestricted deletes)") ∧
    ∃ stmt, (demoDelete.where (.simple "id" "=" (.vInt 7))).build = .ok stmt :=
  ⟨rfl, (C4_delete_requires_where demoDelete).1 rfl,
    (C4_delete_requires_where (demoDelete.where (.simple "id" "=" (.vInt 7)))).2
      ⟨.simple "id" "=" (.vInt 7)⟩ rfl rfl rfl⟩

/-! ## Claim C5 -/

theorem hasSub_head_mem {c : Char} {cs l : List Char}
    (h : hasSub (c :: cs) l) : c ∈ l := by
  obtain ⟨u, v, rfl⟩ := h
  simp

theorem strJoin_forall {P : Char → Prop} {sep : String}
    (hsep : ∀ c ∈ sep.data, P c) :
    ∀ l : List String, (∀ s ∈ l, ∀ c ∈ s.data, P c) →
      ∀ c ∈ (strJoin sep l).data, P c
  | [], _ => by
      intro c hc
      exact absurd hc (List.not_mem_nil c)
  | [s], h => h s (by simp)
  | s :: s2 :: rest, h => by
      have ih := strJoin_forall hsep (s2 :: rest)
        (fun t ht => h t (List.mem_cons_of_mem _ ht))
      intro c hc
      rw [show (strJoin sep (s :: s2 :: rest)) =
        s ++ sep ++ strJoin sep (s2 :: rest) from rfl, data_append,
        data_append] at hc
      rcases List.mem_append.mp hc with hc2 | hc2
      · rcases List.mem_append.mp hc2 with hc3 | hc3
        · exact h s (by simp) c hc3
        · exact hsep c hc3
      · exact ih c hc2

theorem noW_of_noWStr {s : String} (h : noWStr s = true) : 'W' ∉ s.data := by
  intro hm
  have h2 := List.all_eq_true.mp h _ hm
  simp at h2

theorem noW_repr (n : Nat) : 'W' ∉ (Nat.repr n).data := by
  intro hm
  exact ne_of_isDigit (repr_digits n _ hm) (by decide) rfl

theorem _update_next_placeholder_noW (b : UpdateQueryBuilder) :
    ∀ c ∈ b._next_placeholder.1.data, c ≠ 'W' := by
  cases hd : b.sql_dialect
  · intro c hc
    rw [show b._next_placeholder =
      ("$" ++ Nat.repr (b._compiler.param_counter + 1),
        { b with _compiler := { b._compiler with
          param_counter := b._compiler.param_counter + 1 } }) from by
        rw [UpdateQueryBuilder._next_placeholder, hd]] at hc
    rcases List.mem_append.mp hc with hm | hm
    · simp only [show ("$" : String).data = ['$'] from rfl,
        List.mem_singleton] at hm
      subst hm
      decide
    · intro he
      exact noW_repr _ (he ▸ hm)
  · intro c hc
    rw [show b._next_placeholder = ("?", b) from by
      rw [UpdateQueryBuilder._next_placeholder, hd]] at hc
    simp only [show ("?" : String).data = ['?'] from rfl,
      List.mem_singleton] at hc
    subst hc
    decide
  · intro c hc
    rw [show b._next_placeholder = ("%s", b) from by
      rw [UpdateQueryBuilder._next_placeholder, hd]] at hc
    have h2 : c = '%' ∨ c = 's' := by
      simpa [show ("%s" : String).data = ['%', 's'] from rfl] using hc
    rcases h2 with rfl | rfl <;> decide

theorem _update_next_placeholder_dialect (b : UpdateQueryBuilder) :
    b._next_placeholder.2.sql_dialect = b.sql_dialect ∧
    b._next_placeholder.2._set_values = b._set_values ∧
    b._next_placeholder.2.table_name = b.table_name ∧
    b._next_placeholder.2.where_clause = b.where_clause ∧
    b._next_placeholder.2.registry = b.registry := by
  cases hd : b.sql_dialect <;>
    simp [UpdateQueryBuilder._next_placeholder, hd]

theorem _set_loop_noW :
    ∀ (svs : List (String × Value)) (b : UpdateQueryBuilder),
      (∀ p ∈ svs, noWStr p.1 = true) →
      ∀ part ∈ (b._set_loop svs).1, ∀ c ∈ part.data, c ≠ 'W'
  | [], _, _ => by
      intro part hp
      simp [UpdateQueryBuilder._set_loop] at hp
  | (col, v) :: rest, b, hall => by
      intro part hp
      simp only [UpdateQueryBuilder._set_loop, List.mem_cons] at hp
      rcases hp with rfl | hp
      · intro c hc
        rw [data_append, data_append] at hc
        rcases List.mem_append.mp hc with hc2 | hc2
        · rcases List.mem_append.mp hc2 with hc3 | hc3
          · intro he
            exact noW_of_noWStr (hall (col, v) (by simp)) (he ▸ hc3)
          · revert hc3
            have : ∀ x ∈ (" = " : String).data, x ≠ 'W' := by decide
            exact fun hc3 => this c hc3
        · exact _update_next_placeholder_noW b c hc2
      · exact _set_loop_noW rest _
          (fun p hmem => hall p (List.mem_cons_of_mem _ hmem)) part hp

/-- C5 as stated is falsified by a builder whose WHERE condition holds an
`IN` over a non-list value (reachable via `ColumnRef.in_` on a `str` column
with a non-empty string argument): `build()` then fails with a
Precondition-Violated assertion although the SET map is non-empty. -/
theorem C5_counterexample :
    cexUpdate.registry = none ∧
    cexUpdate._set_values ≠ [] ∧
    cexUpdate.build = .error (.assertionError "IN operator requires a list") :=
  ⟨rfl, by simp [cexUpdate], rfl⟩

/-- C5 amended: for an `UpdateQueryBuilder` without a registry, `build()`
fails with a Precondition-Violated condition iff the SET map is empty *or*
the WHERE condition carries an `IN` whose value is not a list; in
particular, with a non-empty SET map and no `where()` call, `build()`
succeeds and (for `W`-free table/column names) the statement text contains
no `WHERE` fragment. -/
theorem C5_amended_update_build (b : UpdateQueryBuilder)
    (hreg : b.registry = none) :
    ((∃ msg, b.build = .error (.assertionError msg)) ↔
      (b._set_values = [] ∨
        ∃ w, b.where_clause = some w ∧ inListsOk w.condition = false)) ∧
    (b._set_values ≠ [] → b.where_clause = none →
      noWStr b.table_name = true →
      (∀ p ∈ b._set_values, noWStr p.1 = true) →
      ∃ stmt, b.build = .ok stmt ∧
        ¬ hasSub ("WHERE" : String).data stmt.text.data) := by
  constructor
  · constructor
    · rintro ⟨msg, hmsg⟩
      by_cases hset : b._set_values.isEmpty = true
      · exact Or.inl (List.isEmpty_iff.mp hset)
      · right
        cases hw : b.where_clause with
        | none =>
            exfalso
            simp only [UpdateQueryBuilder.build, if_neg hset, hreg, hw] at hmsg
            exact Except.noConfusion hmsg
        | some w =>
            refine ⟨w, rfl, ?_⟩
            cases hok : inListsOk w.condition
            · rfl
            · exfalso
              obtain ⟨⟨s1, cc1⟩, h1⟩ := compile_total w.condition
                (b._set_loop b._set_values).2.2._compiler hok
              simp only [UpdateQueryBuilder.build, if_neg hset, hreg, hw,
                WhereClause.to_sql, h1] at hmsg
              exact Except.noConfusion hmsg
    · rintro (hset | ⟨w, hw, hbad⟩)
      · exact ⟨"No columns to update",
          by simp [UpdateQueryBuilder.build, hset]⟩
      · by_cases hset : b._set_values.isEmpty = true
        · exact ⟨"No columns to update",
            by simp [UpdateQueryBuilder.build, hset]⟩
        · refine ⟨"IN operator requires a list", ?_⟩
          have h1 := compile_fail w.condition
            (b._set_loop b._set_values).2.2._compiler hbad
          simp only [UpdateQueryBuilder.build, if_neg hset, hreg, hw,
            WhereClause.to_sql, h1]
  · intro hset hw htab hcols
    have hset2 : ¬(b._set_values.isEmpty = true) :=
      fun h => hset (List.isEmpty_iff.mp h)
    refine ⟨⟨"UPDATE " ++ b.table_name ++ "\nSET " ++
      strJoin ", " (b._set_loop b._set_values).1,
      (b._set_loop b._set_values).2.1⟩, ?_, ?_⟩
    · simp only [UpdateQueryBuilder.build, if_neg hset2, hreg, hw]
    · intro hbad
      have hmem := hasSub_head_mem hbad
      rw [data_append, data_append, data_append] at hmem
      have hjoin : ∀ c ∈ (strJoin ", " (b._set_loop b._set_values).1).data,
          c ≠ 'W' :=
        strJoin_forall (by decide) _
          (fun part hpart => _set_loop_noW b._set_values b hcols part hpart)
      rcases List.mem_append.mp hmem with h2 | h2
      · rcases List.mem_append.mp h2 with h3 | h3
        · rcases List.mem_append.mp h3 with h4 | h4
          · have : ∀ x ∈ ("UPDATE " : String).data, x ≠ 'W' := by decide
            exact this _ h4 rfl
          · exact noW_of_noWStr htab h4
        · have : ∀ x ∈ ("\nSET " : String).data, x ≠ 'W' := by decide
          exact this _ h3 rfl
      · exact hjoin _ h2 rfl

theorem C5_amended_update_build_witness :
    (cexUpdate.registry = none ∧
      ((∃ msg, cexUpdate.build = .error (.assertionError msg)) ↔
        (cexUpdate._set_values = [] ∨
          ∃ w, cexUpdate.where_clause = some w ∧
            inListsOk w.condition = false))) ∧
    (demoUpdate.registry = none ∧
      ∃ stmt, demoUpdate.build = .ok stmt ∧
        ¬ hasSub ("WHERE" : String).data stmt.text.data) :=
  ⟨⟨rfl, (C5_amended_update_build cexUpdate rfl).1⟩,
    ⟨rfl, (C5_amended_update_build demoUpdate rfl).2 (by simp [demoUpdate]) rfl
      rfl (by intro p hp; fin_cases hp <;> rfl)⟩⟩

/-! ## Claim C7 -/

mutual

theorem pyValue_roundtrip : ∀ v : PyValue, jsonSafe v = true →
    ∃ j, pyValueToJson v = .ok j ∧ jsonToPyValue j = v
  | .pNone, _ => ⟨.jNull, rfl, rfl⟩
  | .pBool b, _ => ⟨.jBool b, rfl, rfl⟩
  | .pInt n, _ => ⟨.jInt n, rfl, rfl⟩
  | .pStr s, _ => ⟨.jStr s, rfl, rfl⟩
  | .pList vs, h => by
      obtain ⟨js, h1, h2⟩ := pyValueList_roundtrip vs h
      refine ⟨.jArr js, ?_, ?_⟩
      · simp only [pyValueToJson, h1]
      · simp only [jsonToPyValue, h2]
  | .pTuple vs, h => Bool.noConfusion h
  | .pDecimal lit, h => Bool.noConfusion h
  | .pDatetime iso, h => Bool.noConfusion h
  | .pUuid hex, h => Bool.noConfusion h
  | .pBytes bs, h => Bool.noConfusion h

theorem pyValueList_roundtrip :
    ∀ vs : List PyValue, jsonSafeList vs = true →
      ∃ js, pyValueListToJson vs = .ok js ∧ jsonListToPyValue js = vs
  | [], _ => ⟨[], rfl, rfl⟩
  | v :: rest, h => by
      have h' : jsonSafe v = true ∧ jsonSafeList rest = true := by
        simpa [jsonSafeList, Bool.and_eq_true] using h
      obtain ⟨j, h1, h2⟩ := pyValue_roundtrip v h'.1
      obtain ⟨js, h3, h4⟩ := pyValueList_roundtrip rest h'.2
      refine ⟨j :: js, ?_, ?_⟩
      · simp only [pyValueListToJson, h1, h3]
      · simp only [jsonListToPyValue, h2, h4]

end

theorem columnSnapshot_roundtrip (c : ColumnSnapshot)
    (h : jsonSafe c.default = true) :
    ∃ j, c.asdict = .ok j ∧ columnSnapshotOfJson j = .ok c := by
  rcases c with ⟨name, pt, pk, u, nu, d, df⟩
  obtain ⟨dj, h1, h2⟩ := pyValue_roundtrip d h
  refine ⟨.jObj [("name", .jStr name), ("python_type", .jStr pt),
    ("primary_key", .jBool pk), ("unique", .jBool u),
    ("nullable", .jBool nu), ("default", dj),
    ("default_factory", .jBool df)], ?_, ?_⟩
  · simp only [ColumnSnapshot.asdict, h1]
  · show Except.ok
      (⟨name, pt, pk, u, nu, jsonToPyValue dj, df⟩ : ColumnSnapshot) = _
    rw [h2]

theorem columnsOfJson_roundtrip :
    ∀ cols : List (String × ColumnSnapshot),
      (∀ p ∈ cols, jsonSafe p.2.default = true) →
      ∃ js, columnsAsdict cols = .ok js ∧ columnsOfJson js = .ok cols
  | [], _ => ⟨[], rfl, rfl⟩
  | (n, c) :: rest, h => by
      obtain ⟨j, h1, h2⟩ := columnSnapshot_roundtrip c (h (n, c) (by simp))
      obtain ⟨js, h3, h4⟩ := columnsOfJson_roundtrip rest
        (fun p hp => h p (List.mem_cons_of_mem _ hp))
      refine ⟨(n, j) :: js, ?_, ?_⟩
      · simp only [columnsAsdict, h1, h3]
      · simp only [columnsOfJson, h2, h4]

theorem tableSnapshot_roundtrip (t : TableSnapshot)
    (h : ∀ p ∈ t.columns, jsonSafe p.2.default = true) :
    ∃ j, t.asdict = .ok j ∧ tableSnapshotOfJson j = .ok t := by
  rcases t with ⟨name, columns, pk⟩
  obtain ⟨js, h1, h2⟩ := columnsOfJson_roundtrip columns h
  cases pk with
  | none =>
      refine ⟨.jObj [("name", .jStr name), ("columns", .jObj js),
        ("primary_key", .jNull)], ?_, ?_⟩
      · simp only [TableSnapshot.asdict, h1]
      · change (match columnsOfJson js with
          | .ok cols => Except.ok (TableSnapshot.mk name cols none)
          | .error e => Except.error e) = _
        rw [h2]
  | some p =>
      refine ⟨.jObj [("name", .jStr name), ("columns", .jObj js),
        ("primary_key", .jStr p)], ?_, ?_⟩
      · simp only [TableSnapshot.asdict, h1]
      · change (match columnsOfJson js with
          | .ok cols => Except.ok (TableSnapshot.mk name cols (some p))
          | .error e => Except.error e) = _
        rw [h2]

theorem tablesOfJson_roundtrip :
    ∀ ts : List (String × TableSnapshot),
      (∀ t ∈ ts, ∀ p ∈ t.2.columns, jsonSafe p.2.default = true) →
      ∃ js, tablesAsdict ts = .ok js ∧ tablesOfJson js = .ok ts
  | [], _ => ⟨[], rfl, rfl⟩
  | (n, t) :: rest, h => by
      obtain ⟨j, h1, h2⟩ := tableSnapshot_roundtrip t (h (n, t) (by simp))
      obtain ⟨js, h3, h4⟩ := tablesOfJson_roundtrip rest
        (fun u hu => h u (List.mem_cons_of_mem _ hu))
      refine ⟨(n, j) :: js, ?_, ?_⟩
      · simp only [tablesAsdict, h1, h3]
      · simp only [tablesOfJson, h2, h4]

theorem from_json_to_json (s : SchemaSnapshot) (hv : s.version = "1.0")
    (hs : snapshotSafe s = true) :
    ∃ j, s.to_json = .ok j ∧ SchemaSnapshot.from_json j = .ok s := by
  rcases s with ⟨tables, ver⟩
  simp only at hv
  subst hv
  have hsafe : ∀ t ∈ tables, ∀ p ∈ t.2.columns, jsonSafe p.2.default = true :=
    fun t ht p hp =>
      List.all_eq_true.mp (List.all_eq_true.mp hs t ht) p hp
  obtain ⟨ts, h1, h2⟩ := tablesOfJson_roundtrip tables hsafe
  refine ⟨.jObj [("tables", .jObj ts), ("version", .jStr "1.0")], ?_, ?_⟩
  · simp only [SchemaSnapshot.to_json, h1]
  · change (match tablesOfJson ts with
      | .ok tbls => Except.ok (SchemaSnapshot.mk tbls "1.0")
      | .error e => Except.error e) = _
    rw [h2]

theorem from_tables_version {tcs : List TableClass} {s : SchemaSnapshot}
    (h : SchemaSnapshot.from_tables tcs = .ok s) : s.version = "1.0" := by
  unfold SchemaSnapshot.from_tables at h
  by_cases he : tcs.isEmpty = true
  · rw [if_pos he] at h
    exact Except.noConfusion h
  · rw [if_neg he] at h
    cases hg : fromTablesGo tcs [] with
    | ok tables =>
        simp only [hg, Except.ok.injEq] at h
        rw [← h]
    | error e =>
        simp only [hg] at h
        exact Except.noConfusion h

/-- C7 counterexample: the round-trip law fails on reachable `from_tables`
outputs.  A `Column[Decimal](default=Decimal("1.5"))` column passes
`Column.__post_init__` and `from_tables`, but `to_json`
(`json.dumps(asdict(self))`) raises
`TypeError: Object of type Decimal is not JSON serializable`; and a tuple
default (`Column.default` is unvalidated `Any`) serializes to a JSON array,
so `from_json (to_json s)` returns it as a *list* — not field-for-field
equal to `s`. -/
theorem C7_counterexample :
    (SchemaSnapshot.from_tables [cexDecimalTable] = .ok cexDecimalSnapshot ∧
      cexDecimalSnapshot.to_json =
        .error (.typeError "Object of type Decimal is not JSON serializable")) ∧
    (SchemaSnapshot.from_tables [cexTupleTable] = .ok cexTupleSnapshot ∧
      cexTupleSnapshot.to_json = .ok cexTupleJson ∧
      SchemaSnapshot.from_json cexTupleJson = .ok cexTupleSnapshotLossy ∧
      cexTupleSnapshotLossy ≠ cexTupleSnapshot) :=
  ⟨⟨rfl, rfl⟩, rfl, rfl, rfl,
    fun h => PyValue.noConfusion (congrArg (fun s : SchemaSnapshot =>
      match s.tables with
      | (_, t) :: _ =>
          match t.columns with
          | (_, c) :: _ => c.default
          | [] => .pNone
      | [] => .pNone) h)⟩

/-- C7 (amended): for every snapshot produced by `from_tables` *whose column
defaults are JSON-representable* (`None`, `bool`, `int`, `str` and nested
lists of such), serialization succeeds and deserializing the serialized form
yields a snapshot field-for-field equal to the original: identical table
keys, column keys, type-name strings, flags, defaults and primary-key names
(`ColumnSnapshot` stores only the *presence* of a `default_factory` as a
boolean, so this is full structural equality).  On defaults outside that
fragment the law fails: `Decimal`/`datetime`/`UUID`/`bytes` defaults make
`to_json` raise `TypeError`, and tuple defaults come back as lists. -/
theorem C7_amended_snapshot_roundtrip (table_classes : List TableClass)
    (s : SchemaSnapshot)
    (h : SchemaSnapshot.from_tables table_classes = .ok s)
    (hs : snapshotSafe s = true) :
    ∃ j, s.to_json = .ok j ∧ SchemaSnapshot.from_json j = .ok s :=
  from_json_to_json s (from_tables_version h) hs

theorem C7_amended_snapshot_roundtrip_witness :
    (SchemaSnapshot.from_tables [demoTableClass] = .ok demoSnapshot ∧
      snapshotSafe demoSnapshot = true) ∧
    ∃ j, demoSnapshot.to_json = .ok j ∧
      SchemaSnapshot.from_json j = .ok demoSnapshot :=
  ⟨⟨rfl, rfl⟩,
    C7_amended_snapshot_roundtrip [demoTableClass] demoSnapshot rfl rfl⟩

/-! ## Claim C8 -/

/-- C8 counterexample: the compatibility check is not symmetric.  `TEXT`
(declared) accepts `LONGTEXT` (observed), but `LONGTEXT` (declared) rejects
`TEXT` because `LONGTEXT` is not a key of the alias table. -/
theorem C8_counterexample :
    _types_compatible "TEXT" "LONGTEXT" = true ∧
    _types_compatible "LONGTEXT" "TEXT" = false := by
  exact ⟨by decide, by decide⟩

/-- C8 amended: the compatibility relation is symmetric only on pairs whose
normalized base types are both *keys* of the alias table (`INTEGER`, `INT`,
`TEXT`, `VARCHAR`, `FLOAT`, `NUMERIC`, `DECIMAL`); for a pair whose observed
side appears only inside an alias list (`BIGINT`, `SMALLINT`, `CHAR`,
`LONGTEXT`, `DOUBLE`, `REAL`) the check accepts only the direction in which
the key side is the declared type. -/
theorem C8_amended_symmetry (a b : String)
    (ha : normalizeBase a ∈ aliases.map Prod.fst)
    (hb : normalizeBase b ∈ aliases.map Prod.fst) :
    _types_compatible a b = _types_compatible b a := by
  unfold _types_compatible
  simp only [aliases, List.map_cons, List.map_nil, List.mem_cons,
    List.not_mem_nil, or_false] at ha hb
  rcases ha with ha | ha | ha | ha | ha | ha | ha <;>
    rcases hb with hb | hb | hb | hb | hb | hb | hb <;>
      rw [ha, hb] <;> decide

theorem C8_amended_symmetry_witness :
    (normalizeBase "INTEGER" ∈ aliases.map Prod.fst) ∧
    (normalizeBase "INT" ∈ aliases.map Prod.fst) ∧
    _types_compatible "INTEGER" "INT" = _types_compatible "INT" "INTEGER" :=
  ⟨by decide, by decide,
    C8_amended_symmetry "INTEGER" "INT" (by decide) (by decide)⟩

/-! ## Claim C9 -/

theorem specSegment_cons (prev : Option Char) (c : Char) (rest : List Char) :
    specSegment prev (c :: rest) =
      (if (c.isUpper &&
        (match prev with
         | none => false
         | some p =>
             p.isLower ||
               (match rest.head? with
                | some nx => nx.isLower
                | none => false))) then ['_'] else []) ++
        (c.toLower :: specSegment (some c) rest) := rfl

theorem specSegment_drop (cs : List Char) :
    ∀ (fuel i : Nat), cs.length - i = fuel →
      ((List.range' i fuel).map (fun j =>
        let c := cs.getD j ' '
        let sep :=
          c.isUpper && decide (0 < j) &&
            ((cs.getD (j - 1) ' ').isLower ||
              (decide (j + 1 < cs.length) && (cs.getD (j + 1) ' ').isLower))
        (if sep then ['_'] else []) ++ [c.toLower])).flatten =
      specSegment (if i = 0 then none else some (cs.getD (i - 1) ' '))
        (cs.drop i)
  | 0, i, hi => by
      have hge : cs.length ≤ i := by omega
      rw [List.range'_zero, List.drop_eq_nil_of_le hge]
      simp [specSegment]
  | fuel + 1, i, hi => by
      have hlt : i < cs.length := by omega
      have hget : cs.getD i ' ' = cs[i] := by
        rw [List.getD_eq_getElem?_getD, List.getElem?_eq_getElem hlt]
        rfl
      have hdrop : cs.drop i = cs.getD i ' ' :: cs.drop (i + 1) := by
        rw [List.drop_eq_getElem_cons hlt, hget]
      have ih := specSegment_drop cs fuel (i + 1) (by omega)
      have hnext : (match (cs.drop (i + 1)).head? with
          | some nx => nx.isLower
          | none => false) =
          (decide (i + 1 < cs.length) && (cs.getD (i + 1) ' ').isLower) := by
        by_cases h2 : i + 1 < cs.length
        · rw [List.drop_eq_getElem_cons h2]
          have hget2 : cs.getD (i + 1) ' ' = cs[i + 1] := by
            rw [List.getD_eq_getElem?_getD, List.getElem?_eq_getElem h2]
            rfl
          simp [h2, hget2]
        · rw [List.drop_eq_nil_of_le (by omega)]
          simp [h2]
      rw [List.range'_succ, List.map_cons, List.flatten_cons, hdrop,
        specSegment_cons, ih]
      have hprev : (if i + 1 = 0 then (none : Option Char)
          else some (cs.getD (i + 1 - 1) ' ')) = some (cs.getD i ' ') := by
        simp
      rw [hprev]
      have hsep : ((cs.getD i ' ').isUpper &&
          (match (if i = 0 then (none : Option Char)
            else some (cs.getD (i - 1) ' ')) with
           | none => false
           | some p =>
               p.isLower ||
                 (match (cs.drop (i + 1)).head? with
                  | some nx => nx.isLower
                  | none => false))) =
          ((cs.getD i ' ').isUpper && decide (0 < i) &&
            ((cs.getD (i - 1) ' ').isLower ||
              (decide (i + 1 < cs.length) && (cs.getD (i + 1) ' ').isLower))) := by
        cases i with
        | zero => simp
        | succ k =>
            rw [if_neg (Nat.succ_ne_zero k), hnext]
            simp [Bool.and_assoc]
      dsimp only
      rw [hsep]
      split_ifs <;> simp

/-- C9: table-name derivation is exactly the pure case-segmentation function
the spec describes — a separator goes before an uppercase character at
position `i > 0` precisely when the previous character is lowercase or the
next character is lowercase, and every character is lowercased — and it maps
the four reference identifiers as stated, with no pluralization. -/
theorem C9_table_name_derivation :
    (∀ class_name : String,
      _class_name_to_table_name class_name = spec_table_name class_name) ∧
    _class_name_to_table_name "User" = "user" ∧
    _class_name_to_table_name "UserProfile" = "user_profile" ∧
    _class_name_to_table_name "HTTPServer" = "http_server" ∧
    _class_name_to_table_name "URLRouter" = "url_router" := by
  refine ⟨?_, rfl, rfl, rfl, rfl⟩
  intro s
  unfold _class_name_to_table_name spec_table_name
  dsimp only
  congr 1
  rw [List.range_eq_range']
  have h := specSegment_drop s.data s.data.length 0 (by omega)
  simpa using h

/-! ## Claim C6: scanner lemmas -/

theorem scanPH_nil : scanPH [] = [] := by
  rw [scanPH]

theorem scanPH_cons (c : Char) (rest : List Char) :
    scanPH (c :: rest) = if c = '$'
      then rest.takeWhile Char.isDigit :: scanPH (rest.dropWhile Char.isDigit)
      else scanPH rest := by
  rw [scanPH]

theorem scanPH_no_dollar : ∀ l : List Char, '$' ∉ l → scanPH l = []
  | [], _ => scanPH_nil
  | c :: rest, h => by
      have hc : ¬ c = '$' := by
        intro he
        subst he
        exact h (List.mem_cons_self _ _)
      rw [scanPH_cons, if_neg hc]
      exact scanPH_no_dollar rest (fun hm => h (List.mem_cons_of_mem c hm))

theorem scanPH_append_no_dollar :
    ∀ (a b : List Char), '$' ∉ a → scanPH (a ++ b) = scanPH b
  | [], b, _ => by simp
  | c :: a', b, h => by
      have hc : ¬ c = '$' := by
        intro he
        subst he
        exact h (List.mem_cons_self _ _)
      rw [List.cons_append, scanPH_cons, if_neg hc]
      exact scanPH_append_no_dollar a' b (fun hm => h (List.mem_cons_of_mem c hm))

theorem takeWhile_head_fail {p : Char → Bool} {b : List Char}
    (hb : ∀ d, b.head? = some d → p d = false) :
    b.takeWhile p = [] ∧ b.dropWhile p = b := by
  cases b with
  | nil => exact ⟨rfl, rfl⟩
  | cons d bs =>
      have hd : ¬ p d = true := by
        rw [hb d rfl]
        exact Bool.false_ne_true
      exact ⟨List.takeWhile_cons_of_neg hd, List.dropWhile_cons_of_neg hd⟩

theorem takeWhile_append_not_all {p : Char → Bool} :
    ∀ (l b : List Char), l.all p = false →
      (l ++ b).takeWhile p = l.takeWhile p ∧
      (l ++ b).dropWhile p = l.dropWhile p ++ b
  | [], _, h => by simp at h
  | x :: l', b, h => by
      by_cases hx : p x = true
      · have h' : l'.all p = false := by
          simpa [List.all_cons, hx] using h
        obtain ⟨h1, h2⟩ := takeWhile_append_not_all l' b h'
        constructor
        · rw [List.cons_append, List.takeWhile_cons_of_pos hx,
            List.takeWhile_cons_of_pos hx, h1]
        · rw [List.cons_append, List.dropWhile_cons_of_pos hx,
            List.dropWhile_cons_of_pos hx, h2]
      · constructor
        · rw [List.cons_append, List.takeWhile_cons_of_neg hx,
            List.takeWhile_cons_of_neg hx]
        · rw [List.cons_append, List.dropWhile_cons_of_neg hx,
            List.dropWhile_cons_of_neg hx, List.cons_append]

/-- Scanning `$` followed by a digit run followed by non-digit text yields
the run as one token and continues after it. -/
theorem scanPH_dollar_run (digits rest : List Char)
    (hd : ∀ c ∈ digits, Char.isDigit c = true)
    (hr : ∀ d, rest.head? = some d → Char.isDigit d = false) :
    scanPH ('$' :: (digits ++ rest)) = digits :: scanPH rest := by
  rw [scanPH_cons, if_pos rfl]
  obtain ⟨ht, hdw⟩ := takeWhile_head_fail hr
  rw [List.takeWhile_append_of_pos hd, List.dropWhile_append_of_pos hd,
    ht, hdw, List.append_nil]

theorem scanPH_append :
    ∀ (a b : List Char), (∀ d, b.head? = some d → Char.isDigit d = false) →
      scanPH (a ++ b) = scanPH a ++ scanPH b
  | [], b, _ => by simp [scanPH_nil]
  | c :: a', b, hb => by
      obtain ⟨htb, hdb⟩ := takeWhile_head_fail hb
      by_cases hc : c = '$'
      · subst hc
        rw [List.cons_append, scanPH_cons, scanPH_cons, if_pos rfl, if_pos rfl]
        cases hall : a'.all Char.isDigit with
        | false =>
            obtain ⟨h1, h2⟩ := takeWhile_append_not_all a' b hall
            rw [h1, h2, scanPH_append (a'.dropWhile Char.isDigit) b hb,
              List.cons_append]
        | true =>
            have hmem : ∀ x ∈ a', Char.isDigit x = true :=
              fun x hx => List.all_eq_true.mp hall x hx
            have hda : a'.dropWhile Char.isDigit = [] := by
              rw [List.dropWhile_eq_nil_iff]
              exact hmem
            have hta : a'.takeWhile Char.isDigit = a' := by
              rw [List.takeWhile_eq_self_iff]
              exact hmem
            rw [List.takeWhile_append_of_pos hmem,
              List.dropWhile_append_of_pos hmem, htb, hdb, hda, hta,
              List.append_nil, scanPH_nil]
            rfl
      · rw [List.cons_append, scanPH_cons, scanPH_cons, if_neg hc, if_neg hc]
        exact scanPH_append a' b hb
termination_by a _ _ => a.length
decreasing_by
  · have h := congrArg List.length
      (List.takeWhile_append_dropWhile Char.isDigit a')
    rw [List.length_append] at h
    simp only [List.length_cons]
    omega
  · simp

theorem no_dollar_of_clean {s : String} (h : cleanStr s = true) :
    '$' ∉ s.data := by
  intro hm
  have h2 := List.all_eq_true.mp h _ hm
  simp at h2

theorem no_dollar_append {a b : List Char} (ha : '$' ∉ a) (hb : '$' ∉ b) :
    '$' ∉ a ++ b := by
  intro hm
  rcases List.mem_append.mp hm with h | h
  exacts [ha h, hb h]

/-- Scanning a comma-joined list of PostgreSQL placeholders `$a, $(a+1), …`
followed by non-digit text yields exactly the numbers' digit runs. -/
theorem scan_units_join :
    ∀ (ks : List Nat) (rest : List Char),
      (∀ d, rest.head? = some d → Char.isDigit d = false) →
      scanPH ((strJoin ", " (ks.map (fun k => "$" ++ Nat.repr k))).data ++ rest) =
        (ks.map (fun k => (Nat.repr k).data)) ++ scanPH rest
  | [], rest, _ => by
      show scanPH (([] : List Char) ++ rest) = _
      simp
  | [k], rest, hr => by
      show scanPH ('$' :: ((Nat.repr k).data ++ rest)) = _
      rw [scanPH_dollar_run _ _ (repr_digits k) hr]
      rfl
  | k :: k2 :: ks, rest, hr => by
      have ih := scan_units_join (k2 :: ks) rest hr
      show scanPH ((("$" ++ Nat.repr k) ++ ", " ++
        strJoin ", " ((k2 :: ks).map (fun j => "$" ++ Nat.repr j))).data ++ rest) = _
      have hshape : (("$" ++ Nat.repr k) ++ ", " ++
          strJoin ", " ((k2 :: ks).map (fun j => "$" ++ Nat.repr j))).data ++ rest =
          '$' :: ((Nat.repr k).data ++ ((", " : String).data ++
            ((strJoin ", " ((k2 :: ks).map (fun j => "$" ++ Nat.repr j))).data ++
              rest))) := by
        rw [data_append, data_append, data_append]
        simp [List.append_assoc]
      rw [hshape, scanPH_dollar_run _ _ (repr_digits k)
        (fun d hd => by cases hd; decide)]
      rw [scanPH_append_no_dollar (", " : String).data _ (by decide), ih]
      rfl

/-- Under PostgreSQL, `_placeholders n` starting at counter `cnt` produces
exactly the strings `$cnt+1, …, $cnt+n`. -/
theorem _placeholders_units :
    ∀ (n : Nat) (cc : ConditionCompiler), cc.sql_dialect = .postgresql →
      (cc._placeholders n).1 =
        (List.range' (cc.param_counter + 1) n).map (fun k => "$" ++ Nat.repr k)
  | 0, cc, _ => by simp [ConditionCompiler._placeholders]
  | n + 1, cc, hd => by
      rcases cc with ⟨d, ps, k⟩
      simp only at hd
      subst hd
      have ih := _placeholders_units n ⟨.postgresql, ps, k + 1⟩ rfl
      simp only at ih
      show ("$" ++ Nat.repr (k + 1)) ::
        (ConditionCompiler._placeholders ⟨.postgresql, ps, k + 1⟩ n).1 = _
      rw [ih, List.range'_succ, List.map_cons]

/-- Scanning a `sep`-joined list of parenthesized parts concatenates the
parts' scans when the separator has no `$` and neither the separator nor a
part starts with a digit. -/
theorem scanPH_parts_join (sep : String) (hsep : '$' ∉ sep.data)
    (hsephead : ∀ d, sep.data.head? = some d → Char.isDigit d = false) :
    ∀ parts : List String, (∀ t ∈ parts, t.data.head? = some '(') →
      scanPH (strJoin sep parts).data =
        (parts.map (fun t => scanPH t.data)).flatten
  | [], _ => by
      show scanPH [] = _
      simp [scanPH_nil]
  | [t], _ => by
      show scanPH t.data = _
      simp
  | t :: t2 :: ps, hheads => by
      have hih := scanPH_parts_join sep hsep hsephead (t2 :: ps)
        (fun u hu => hheads u (List.mem_cons_of_mem _ hu))
      have ht2 : (strJoin sep (t2 :: ps)).data.head? = some '(' := by
        obtain ⟨u, hu⟩ := strJoin_cons_ex sep t2 ps
        rw [hu, List.head?_append_of_ne_nil _
          (ne_nil_of_head? (hheads t2 (by simp)))]
        exact hheads t2 (by simp)
      show scanPH ((t ++ sep ++ strJoin sep (t2 :: ps)).data) = _
      rw [data_append, data_append,
        scanPH_append _ _ (fun d hd => by
          rw [ht2] at hd
          cases hd
          decide),
        scanPH_append _ _ hsephead,
        scanPH_no_dollar sep.data hsep, List.append_nil, hih]
      simp

mutual

theorem compile_scan :
    ∀ (c : Condition) (cc : ConditionCompiler) (s : String)
      (cc' : ConditionCompiler),
      cc.sql_dialect = .postgresql → cleanCond c = true →
      cc.compile c = .ok (s, cc') →
      scanPH s.data = (List.range' (cc.param_counter + 1)
        (treeParams c).length).map (fun k => (Nat.repr k).data)
  | .simple col op v, cc, s, cc', hd, hcl, h => by
      simp only [cleanCond, Bool.and_eq_true] at hcl
      have hcol : '$' ∉ col.data := no_dollar_of_clean hcl.1
      have hop : '$' ∉ op.data := no_dollar_of_clean hcl.2
      simp only [ConditionCompiler.compile,
        ConditionCompiler._compile_simple] at h
      split_ifs at h with h1 h2 h3
      · simp only [Except.ok.injEq, Prod.mk.injEq] at h
        obtain ⟨rfl, rfl⟩ := h
        rw [data_append,
          scanPH_append_no_dollar _ _ hcol,
          scanPH_no_dollar _ (by decide)]
        simp [treeParams, h1]
      · simp only [Except.ok.injEq, Prod.mk.injEq] at h
        obtain ⟨rfl, rfl⟩ := h
        rw [data_append,
          scanPH_append_no_dollar _ _ hcol,
          scanPH_no_dollar _ (by decide)]
        simp [treeParams, h1, h2]
      · subst h3
        cases v with
        | vList vs =>
            simp only [Except.ok.injEq, Prod.mk.injEq] at h
            obtain ⟨rfl, rfl⟩ := h
            have hunits := _placeholders_units vs.length cc hd
            have htp : treeParams (.simple col "IN" (.vList vs)) = vs := by
              simp [treeParams]
            have hshape : (col ++ " IN (" ++
                strJoin ", " (cc._placeholders vs.length).1 ++ ")").data =
                col.data ++ ((" IN (" : String).data ++
                  ((strJoin ", " (cc._placeholders vs.length).1).data ++
                    (")" : String).data)) := by
              rw [data_append, data_append, data_append]
              simp [List.append_assoc]
            rw [hshape, scanPH_append_no_dollar _ _ hcol,
              scanPH_append_no_dollar _ _ (by decide), hunits,
              scan_units_join _ _ (fun d hd2 => by cases hd2; decide),
              scanPH_no_dollar _ (by decide), List.append_nil, htp]
        | vNone => exact Except.noConfusion h
        | vBool b => exact Except.noConfusion h
        | vInt n => exact Except.noConfusion h
        | vStr t => exact Except.noConfusion h
      · simp only [Except.ok.injEq, Prod.mk.injEq] at h
        obtain ⟨rfl, rfl⟩ := h
        have hph : cc._next_placeholder =
            ("$" ++ Nat.repr (cc.param_counter + 1),
              { cc with param_counter := cc.param_counter + 1 }) := by
          rcases cc with ⟨d, ps, k⟩
          simp only at hd
          subst hd
          rfl
        rw [hph]
        have hshape : (col ++ " " ++ op ++ " " ++
            ("$" ++ Nat.repr (cc.param_counter + 1))).data =
            col.data ++ ((" " : String).data ++ (op.data ++
              ((" " : String).data ++
                ('$' :: (Nat.repr (cc.param_counter + 1)).data)))) := by
          rw [data_append, data_append, data_append]
          simp [List.append_assoc]
        rw [hshape, scanPH_append_no_dollar _ _ hcol,
          scanPH_append_no_dollar _ _ (by decide),
          scanPH_append_no_dollar _ _ hop,
          scanPH_append_no_dollar _ _ (by decide)]
        have hrun : scanPH ('$' :: ((Nat.repr (cc.param_counter + 1)).data ++ [])) =
            (Nat.repr (cc.param_counter + 1)).data :: scanPH [] :=
          scanPH_dollar_run _ _ (repr_digits _) (fun d hd2 => by cases hd2)
        rw [List.append_nil] at hrun
        rw [hrun, scanPH_nil]
        have htp : treeParams (.simple col op v) = [v] := by
          simp [treeParams, h1, h2, h3]
        rw [htp]
        rfl
  | .compound conds op, cc, s, cc', hd, hcl, h => by
      simp only [cleanCond, Bool.and_eq_true] at hcl
      simp only [ConditionCompiler.compile] at h
      cases hp : ConditionCompiler._compile_parts cc conds with
      | error e =>
          rw [hp] at h
          exact Except.noConfusion h
      | ok pr =>
          obtain ⟨parts, cc2⟩ := pr
          rw [hp] at h
          simp only [Except.ok.injEq, Prod.mk.injEq] at h
          obtain ⟨rfl, rfl⟩ := h
          obtain ⟨hscan, hheads⟩ :=
            compile_parts_scan conds cc parts cc2 hd hcl.2 hp
          rw [scanPH_parts_join (" " ++ op ++ " ")
            (by
              rw [data_append, data_append]
              refine no_dollar_append (no_dollar_append (by decide)
                (no_dollar_of_clean hcl.1)) (by decide))
            (fun d hd2 => by
              rw [show ((" " ++ op ++ " ") : String).data =
                ' ' :: (op.data ++ (" " : String).data) from by
                  rw [data_append, data_append]
                  simp [List.append_assoc]] at hd2
              cases hd2
              decide)
            parts hheads, hscan]
          simp [treeParams]

theorem compile_parts_scan :
    ∀ (cs : List Condition) (cc : ConditionCompiler) (ss : List String)
      (cc' : ConditionCompiler),
      cc.sql_dialect = .postgresql → cleanCondList cs = true →
      ConditionCompiler._compile_parts cc cs = .ok (ss, cc') →
      ((ss.map (fun t => scanPH t.data)).flatten =
        (List.range' (cc.param_counter + 1) (treeParamsList cs).length).map
          (fun k => (Nat.repr k).data)) ∧
      ∀ t ∈ ss, t.data.head? = some '('
  | [], cc, ss, cc', _, _, h => by
      simp only [ConditionCompiler._compile_parts, Except.ok.injEq,
        Prod.mk.injEq] at h
      obtain ⟨rfl, rfl⟩ := h
      exact ⟨by simp [treeParamsList], fun t ht => absurd ht (List.not_mem_nil t)⟩
  | c :: rest, cc, ss, cc', hd, hcl, h => by
      simp only [cleanCondList, Bool.and_eq_true] at hcl
      simp only [ConditionCompiler._compile_parts] at h
      cases h1 : ConditionCompiler.compile cc c with
      | error e =>
          simp only [h1] at h
          exact Except.noConfusion h
      | ok pr1 =>
          obtain ⟨s1, cc1⟩ := pr1
          simp only [h1] at h
          cases h2 : ConditionCompiler._compile_parts cc1 rest with
          | error e =>
              simp only [h2] at h
              exact Except.noConfusion h
          | ok pr2 =>
              obtain ⟨ss2, cc2⟩ := pr2
              simp only [h2, Except.ok.injEq, Prod.mk.injEq] at h
              obtain ⟨rfl, rfl⟩ := h
              obtain ⟨hd1, _, hcnt1, _⟩ := compile_spec c cc s1 cc1 h1
              have hscan1 := compile_scan c cc s1 cc1 hd hcl.1 h1
              obtain ⟨ihscan, ihheads⟩ :=
                compile_parts_scan rest cc1 ss2 cc2 (hd1.trans hd) hcl.2 h2
              constructor
              · rw [List.map_cons, List.flatten_cons]
                have hpart : scanPH (("(" ++ s1 ++ ")") : String).data =
                    scanPH s1.data := by
                  show scanPH ('(' :: (s1.data ++ (")" : String).data)) = _
                  rw [scanPH_cons, if_neg (by decide),
                    scanPH_append s1.data (")" : String).data
                      (fun d hd2 => by cases hd2; decide),
                    scanPH_no_dollar ((")" : String).data) (by decide),
                    List.append_nil]
                rw [hpart, hscan1, ihscan, hcnt1, hd]
                simp only [pgInc]
                rw [show cc.param_counter + (treeParams c).length + 1 =
                    cc.param_counter + 1 + (treeParams c).length from by omega,
                  ← List.map_append, List.range'_append_1, treeParamsList,
                  List.length_append,
                  Nat.add_comm (treeParams c).length (treeParamsList rest).length]
              · intro t ht
                rcases List.mem_cons.mp ht with rfl | ht
                · rw [show (("(" ++ s1 ++ ")") : String).data =
                    '(' :: (s1.data ++ (")" : String).data) from rfl]
                  rfl
                · exact ihheads t ht

end

theorem _update_np_fields (b : UpdateQueryBuilder) :
    b._next_placeholder.2.where_clause = b.where_clause ∧
    b._next_placeholder.2.table_name = b.table_name ∧
    b._next_placeholder.2.sql_dialect = b.sql_dialect ∧
    b._next_placeholder.2._compiler.sql_dialect = b._compiler.sql_dialect ∧
    b._next_placeholder.2._compiler.parameters = b._compiler.parameters ∧
    b._next_placeholder.2._compiler.param_counter =
      b._compiler.param_counter + pgInc b.sql_dialect 1 := by
  cases hd : b.sql_dialect
  · rw [show b._next_placeholder =
      ("$" ++ Nat.repr (b._compiler.param_counter + 1),
        { b with _compiler := { b._compiler with
          param_counter := b._compiler.param_counter + 1 } }) from by
      rw [UpdateQueryBuilder._next_placeholder, hd]]
    exact ⟨rfl, rfl, hd, rfl, rfl, rfl⟩
  · rw [show b._next_placeholder = ("?", b) from by
      rw [UpdateQueryBuilder._next_placeholder, hd]]
    exact ⟨rfl, rfl, hd, rfl, rfl, rfl⟩
  · rw [show b._next_placeholder = ("%s", b) from by
      rw [UpdateQueryBuilder._next_placeholder, hd]]
    exact ⟨rfl, rfl, hd, rfl, rfl, rfl⟩

theorem _set_loop_spec :
    ∀ (svs : List (String × Value)) (b : UpdateQueryBuilder),
      (b._set_loop svs).2.1 = svs.map Prod.snd ∧
      (b._set_loop svs).2.2.where_clause = b.where_clause ∧
      (b._set_loop svs).2.2.table_name = b.table_name ∧
      (b._set_loop svs).2.2.sql_dialect = b.sql_dialect ∧
      (b._set_loop svs).2.2._compiler.sql_dialect = b._compiler.sql_dialect ∧
      (b._set_loop svs).2.2._compiler.parameters = b._compiler.parameters ∧
      (b._set_loop svs).2.2._compiler.param_counter =
        b._compiler.param_counter + pgInc b.sql_dialect svs.length
  | [], b => by
      refine ⟨rfl, rfl, rfl, rfl, rfl, rfl, ?_⟩
      cases b.sql_dialect <;> simp [UpdateQueryBuilder._set_loop, pgInc]
  | (col, v) :: svs', b => by
      obtain ⟨n1, n2, n3, n4, n5, n6⟩ := _update_np_fields b
      obtain ⟨i1, i2, i3, i4, i5, i6, i7⟩ :=
        _set_loop_spec svs' b._next_placeholder.2
      refine ⟨?_, ?_, ?_, ?_, ?_, ?_, ?_⟩
      · show v :: (b._next_placeholder.2._set_loop svs').2.1 = _
        rw [i1, List.map_cons]
      · show (b._next_placeholder.2._set_loop svs').2.2.where_clause = _
        rw [i2, n1]
      · show (b._next_placeholder.2._set_loop svs').2.2.table_name = _
        rw [i3, n2]
      · show (b._next_placeholder.2._set_loop svs').2.2.sql_dialect = _
        rw [i4, n3]
      · show (b._next_placeholder.2._set_loop svs').2.2._compiler.sql_dialect = _
        rw [i5, n4]
      · show (b._next_placeholder.2._set_loop svs').2.2._compiler.parameters = _
        rw [i6, n5]
      · show (b._next_placeholder.2._set_loop svs').2.2._compiler.param_counter = _
        rw [i7, n6, n3, List.length_cons]
        cases b.sql_dialect
        · simp only [pgInc]
          omega
        · simp [pgInc]
        · simp [pgInc]

theorem _set_loop_scan :
    ∀ (svs : List (String × Value)) (b : UpdateQueryBuilder),
      b.sql_dialect = .postgresql →
      (∀ p ∈ svs, cleanStr p.1 = true) →
      ∀ rest : List Char, (∀ d, rest.head? = some d → Char.isDigit d = false) →
      scanPH ((strJoin ", " (b._set_loop svs).1).data ++ rest) =
        ((List.range' (b._compiler.param_counter + 1) svs.length).map
          (fun k => (Nat.repr k).data)) ++ scanPH rest
  | [], b, _, _, rest, _ => by
      show scanPH (([] : List Char) ++ rest) = _
      simp
  | (col, v) :: svs', b, hd, hclean, rest, hr => by
      have hnp : b._next_placeholder =
          ("$" ++ Nat.repr (b._compiler.param_counter + 1),
            { b with _compiler := { b._compiler with
              param_counter := b._compiler.param_counter + 1 } }) := by
        rw [UpdateQueryBuilder._next_placeholder, hd]
      have hcol : '$' ∉ col.data :=
        no_dollar_of_clean (hclean (col, v) (by simp))
      cases hsv : (b._next_placeholder.2._set_loop svs').1 with
      | nil =>
          have hnil : svs' = [] := by
            have := (_set_loop_spec svs' b._next_placeholder.2).1
            cases svs' with
            | nil => rfl
            | cons p ps =>
                rw [show (b._next_placeholder.2._set_loop (p :: ps)).1 =
                  (p.1 ++ " = " ++ b._next_placeholder.2._next_placeholder.1) ::
                    (b._next_placeholder.2._next_placeholder.2._set_loop ps).1
                  from by rw [UpdateQueryBuilder._set_loop]] at hsv
                exact List.noConfusion hsv
          subst hnil
          show scanPH ((strJoin ", "
            [col ++ " = " ++ b._next_placeholder.1]).data ++ rest) = _
          rw [hnp]
          show scanPH ((col ++ " = " ++
            ("$" ++ Nat.repr (b._compiler.param_counter + 1))).data ++ rest) = _
          have hshape : (col ++ " = " ++
              ("$" ++ Nat.repr (b._compiler.param_counter + 1))).data ++ rest =
              col.data ++ ((" = " : String).data ++
                ('$' :: ((Nat.repr (b._compiler.param_counter + 1)).data ++
                  rest))) := by
            rw [data_append, data_append]
            simp [List.append_assoc]
          rw [hshape, scanPH_append_no_dollar _ _ hcol,
            scanPH_append_no_dollar _ _ (by decide),
            scanPH_dollar_run _ _ (repr_digits _) hr]
          rfl
      | cons part parts =>
          have ih := _set_loop_scan svs' b._next_placeholder.2
            (by rw [hnp]; exact hd)
            (fun p hp => hclean p (List.mem_cons_of_mem _ hp))
            rest hr
          show scanPH ((strJoin ", "
            ((col ++ " = " ++ b._next_placeholder.1) ::
              (b._next_placeholder.2._set_loop svs').1)).data ++ rest) = _
          rw [hsv] at ih ⊢
          have hjoin : strJoin ", "
              ((col ++ " = " ++ b._next_placeholder.1) :: part :: parts) =
              (col ++ " = " ++ b._next_placeholder.1) ++ ", " ++
                strJoin ", " (part :: parts) := rfl
          rw [hjoin, hnp]
          have hshape : ((col ++ " = " ++
              ("$" ++ Nat.repr (b._compiler.param_counter + 1))) ++ ", " ++
              strJoin ", " (part :: parts)).data ++ rest =
              col.data ++ ((" = " : String).data ++
                ('$' :: ((Nat.repr (b._compiler.param_counter + 1)).data ++
                  ((", " : String).data ++
                    ((strJoin ", " (part :: parts)).data ++ rest))))) := by
            rw [data_append, data_append, data_append, data_append]
            simp [List.append_assoc]
          rw [hshape, scanPH_append_no_dollar _ _ hcol,
            scanPH_append_no_dollar _ _ (by decide),
            scanPH_dollar_run _ _ (repr_digits _)
              (fun d hd2 => by cases hd2; decide),
            scanPH_append_no_dollar ((", " : String).data) _ (by decide)]
          rw [hnp] at ih
          simp only at ih
          rw [ih, List.length_cons, List.range'_succ, List.map_cons]
          rfl

/-! ## Claim C6 -/

/-- **C6.** Under the PostgreSQL dialect, for every `UpdateQueryBuilder` with
a fresh compiler, no registry, a non-empty SET map whose column names are
free of placeholder markers, a marker-free table name and a clean WHERE
condition: when `build` succeeds, the statement text's placeholder digit runs
are exactly `1, …, n, n+1, …, n+k` in order (`n` SET entries first, in
insertion order, then the `k` WHERE parameters), and the parameter list is
the SET values in insertion order followed by the WHERE condition's values in
tree order — placeholders and positional parameters line up. -/
theorem C6_update_placeholder_sequence
    (b : UpdateQueryBuilder) (w : WhereClause) (stmt : SQLStatement)
    (hd : b.sql_dialect = .postgresql)
    (hcomp : b._compiler = { sql_dialect := .postgresql })
    (hreg : b.registry = none)
    (hw : b.where_clause = some w)
    (hset : b._set_values ≠ [])
    (htn : cleanStr b.table_name = true)
    (hclean : ∀ p ∈ b._set_values, cleanStr p.1 = true)
    (hcl : cleanCond w.condition = true)
    (hb : b.build = .ok stmt) :
    scanPH stmt.text.data =
      (List.range' 1
        (b._set_values.length + (treeParams w.condition).length)).map
        (fun k => (Nat.repr k).data) ∧
    stmt.parameters = b._set_values.map Prod.snd ++ treeParams w.condition := by
  have hc0 : b._compiler.param_counter = 0 := by rw [hcomp]
  have hcp : b._compiler.parameters = [] := by rw [hcomp]
  have hset' : ¬ b._set_values.isEmpty = true := fun h => hset (by
    cases hsv : b._set_values with
    | nil => rfl
    | cons p ps =>
        rw [hsv] at h
        exact Bool.noConfusion h)
  obtain ⟨sl1, _, _, _, sl5, sl6, sl7⟩ := _set_loop_spec b._set_values b
  simp only [UpdateQueryBuilder.build, if_neg hset', hreg, hw] at hb
  cases hcw : ConditionCompiler.compile
      (b._set_loop b._set_values).2.2._compiler w.condition with
  | error e =>
      simp only [WhereClause.to_sql, hcw] at hb
      exact Except.noConfusion hb
  | ok pw =>
      obtain ⟨wsql, cc1⟩ := pw
      simp only [WhereClause.to_sql, hcw, Except.ok.injEq] at hb
      subst hb
      have hdial : (b._set_loop b._set_values).2.2._compiler.sql_dialect =
          .postgresql := by
        rw [sl5, hcomp]
      have hcnt : (b._set_loop b._set_values).2.2._compiler.param_counter =
          b._set_values.length := by
        rw [sl7, hc0, hd]
        simp [pgInc]
      obtain ⟨_, hparams, _, _⟩ := compile_spec w.condition _ wsql cc1 hcw
      have hscanw := compile_scan w.condition _ wsql cc1 hdial hcl hcw
      rw [hcnt] at hscanw
      constructor
      · show scanPH ("UPDATE " ++ b.table_name ++ "\nSET " ++
          strJoin ", " (b._set_loop b._set_values).1 ++ "\n" ++
          ("WHERE " ++ wsql)).data = _
        have hshape : ("UPDATE " ++ b.table_name ++ "\nSET " ++
            strJoin ", " (b._set_loop b._set_values).1 ++ "\n" ++
            ("WHERE " ++ wsql)).data =
            ("UPDATE " : String).data ++ (b.table_name.data ++
              (("\nSET " : String).data ++
                ((strJoin ", " (b._set_loop b._set_values).1).data ++
                  ('\n' :: (("WHERE " : String).data ++ wsql.data))))) := by
          rw [data_append, data_append, data_append, data_append, data_append]
          simp [List.append_assoc]
        rw [hshape,
          scanPH_append_no_dollar (("UPDATE " : String).data) _ (by decide),
          scanPH_append_no_dollar b.table_name.data _ (no_dollar_of_clean htn),
          scanPH_append_no_dollar (("\nSET " : String).data) _ (by decide),
          _set_loop_scan b._set_values b hd hclean
            ('\n' :: (("WHERE " : String).data ++ wsql.data))
            (fun d hd2 => by cases hd2; decide),
          hc0]
        have hrest : scanPH ('\n' :: (("WHERE " : String).data ++ wsql.data)) =
            scanPH wsql.data := by
          rw [scanPH_cons, if_neg (by decide),
            scanPH_append_no_dollar (("WHERE " : String).data) _ (by decide)]
        rw [hrest, hscanw, ← List.map_append, Nat.zero_add,
          Nat.add_comm b._set_values.length 1, List.range'_append_1,
          Nat.add_comm (treeParams w.condition).length b._set_values.length]
      · show (b._set_loop b._set_values).2.1 ++ cc1.parameters = _
        rw [sl1, hparams, sl6, hcp, List.nil_append]

theorem C6_update_placeholder_sequence_witness :
    scanPH ("UPDATE user\nSET name = $1, age = $2\nWHERE id = $3" :
        String).data =
      (List.range' 1 (demoUpdateWhere._set_values.length +
        (treeParams (Condition.simple "id" "=" (Value.vInt 7))).length)).map
        (fun k => (Nat.repr k).data) ∧
    ([Value.vStr "x", Value.vInt 3, Value.vInt 7] : List Value) =
      demoUpdateWhere._set_values.map Prod.snd ++
        treeParams (Condition.simple "id" "=" (Value.vInt 7)) :=
  C6_update_placeholder_sequence demoUpdateWhere
    ⟨.simple "id" "=" (.vInt 7)⟩
    ⟨"UPDATE user\nSET name = $1, age = $2\nWHERE id = $3",
      [.vStr "x", .vInt 3, .vInt 7]⟩
    rfl rfl rfl rfl (fun h => List.noConfusion h) rfl (by decide) rfl rfl

/-! ## Claim C10 -/

/-- The `SELECT * FROM …` clause of marker-free table names holds no
placeholder marker. -/
theorem select_clause_count_zero (tables : List String) (d : Dialect)
    (h : ∀ t ∈ tables, cleanStr t = true) :
    (SelectClause.to_sql ⟨tables, none⟩).data.count (markerChar d) = 0 := by
  show ("SELECT " ++ "*" ++ " FROM " ++ strJoin ", " tables).data.count _ = 0
  rw [data_append, data_append, data_append, List.count_append,
    List.count_append, List.count_append,
    strJoin_count_sum (show (", " : String).data.count (markerChar d) = 0 from
      by cases d <;> decide)]
  rw [List.sum_eq_zero (by
    intro x hx
    obtain ⟨t, ht, rfl⟩ := List.mem_map.mp hx
    exact count_marker_of_clean (h t ht) d)]
  cases d <;> decide

/-- **C10.** `build` on a `SelectQueryBuilder` is not idempotent: for a
builder with a fresh PostgreSQL compiler, no registry, joins, order-bys,
limit or offset, marker-free table names and a clean WHERE condition of `k`
parameters, the first `build` yields a statement with `k` placeholders and
`k` parameters, but a second `build` on the returned builder yields a
statement whose text still has `k` placeholders while its parameter list has
length `2·k` — so as soon as `k ≥ 1` the placeholder-equals-parameter-count
invariant fails for the second build. -/
theorem C10_select_build_not_idempotent
    (b : SelectQueryBuilder) (w : WhereClause)
    (s1 s2 : SQLStatement) (b1 b2 : SelectQueryBuilder)
    (hcomp : b._compiler = { sql_dialect := .postgresql })
    (hreg : b.registry = none)
    (hjoins : b.join_clauses = [])
    (hw : b.where_clause = some w)
    (hords : b.order_by_clauses = [])
    (hlim : b.limit_clause = none)
    (hoff : b.offset_clause = none)
    (htab : ∀ t ∈ b.tables, cleanStr t = true)
    (hcl : cleanCond w.condition = true)
    (hb1 : b.build = .ok (s1, b1))
    (hb2 : b1.build = .ok (s2, b2)) :
    countPlaceholders .postgresql s1.text = (treeParams w.condition).length ∧
    s1.parameters.length = (treeParams w.condition).length ∧
    countPlaceholders .postgresql s2.text = (treeParams w.condition).length ∧
    s2.parameters.length = 2 * (treeParams w.condition).length ∧
    (1 ≤ (treeParams w.condition).length →
      s2.parameters.length ≠ countPlaceholders .postgresql s2.text) := by
  have hcp : b._compiler.parameters = [] := by rw [hcomp]
  have hcd : b._compiler.sql_dialect = .postgresql := by rw [hcomp]
  simp only [SelectQueryBuilder.build, SelectQueryBuilder._validate_if_registry,
    hreg, hjoins, hw, hords, hlim, hoff, joins_to_sql, order_bys_to_sql] at hb1
  cases hcw : ConditionCompiler.compile b._compiler w.condition with
  | error e =>
      simp only [WhereClause.to_sql, hcw] at hb1
      exact Except.noConfusion hb1
  | ok pw =>
      obtain ⟨wsql, cc1⟩ := pw
      simp only [WhereClause.to_sql, hcw, hords, hlim, hoff, order_bys_to_sql,
        Except.ok.injEq, Prod.mk.injEq] at hb1
      obtain ⟨rfl, rfl⟩ := hb1
      obtain ⟨cd1, cp1, _, cm1⟩ := compile_spec w.condition b._compiler wsql cc1 hcw
      rw [hcd] at cm1
      simp only [SelectQueryBuilder.build, SelectQueryBuilder._validate_if_registry,
        hreg, hjoins, hw, hords, hlim, hoff, joins_to_sql,
        order_bys_to_sql] at hb2
      cases hcw2 : ConditionCompiler.compile cc1 w.condition with
      | error e =>
          simp only [WhereClause.to_sql, hcw2] at hb2
          exact Except.noConfusion hb2
      | ok pw2 =>
          obtain ⟨wsql2, cc2⟩ := pw2
          simp only [WhereClause.to_sql, hcw2, hords, hlim, hoff,
            order_bys_to_sql, Except.ok.injEq, Prod.mk.injEq] at hb2
          obtain ⟨rfl, rfl⟩ := hb2
          obtain ⟨_, cp2, _, cm2⟩ := compile_spec w.condition cc1 wsql2 cc2 hcw2
          rw [cd1, hcd] at cm2
          have hwcount : (("WHERE " : String)).data.count
              (markerChar .postgresql) = 0 := by decide
          have hq1 : countPlaceholders .postgresql
              (strJoin "\n" [SelectClause.to_sql ⟨b.tables, none⟩,
                "WHERE " ++ wsql]) = (treeParams w.condition).length := by
            show (strJoin "\n" [SelectClause.to_sql ⟨b.tables, none⟩,
              "WHERE " ++ wsql]).data.count (markerChar .postgresql) = _
            rw [strJoin_count_sum (show ("\n" : String).data.count
                (markerChar .postgresql) = 0 from by decide),
              List.map_cons, List.map_cons, List.map_nil, List.sum_cons,
              List.sum_cons, List.sum_nil,
              select_clause_count_zero b.tables .postgresql htab,
              data_append, List.count_append, hwcount, cm1 hcl]
            omega
          have hq2 : cc1.parameters.length = (treeParams w.condition).length := by
            rw [cp1, hcp, List.nil_append]
          have hq3 : countPlaceholders .postgresql
              (strJoin "\n" [SelectClause.to_sql ⟨b.tables, none⟩,
                "WHERE " ++ wsql2]) = (treeParams w.condition).length := by
            show (strJoin "\n" [SelectClause.to_sql ⟨b.tables, none⟩,
              "WHERE " ++ wsql2]).data.count (markerChar .postgresql) = _
            rw [strJoin_count_sum (show ("\n" : String).data.count
                (markerChar .postgresql) = 0 from by decide),
              List.map_cons, List.map_cons, List.map_nil, List.sum_cons,
              List.sum_cons, List.sum_nil,
              select_clause_count_zero b.tables .postgresql htab,
              data_append, List.count_append, hwcount, cm2 hcl]
            omega
          have hq4 : cc2.parameters.length =
              2 * (treeParams w.condition).length := by
            rw [cp2, cp1, hcp, List.nil_append, List.length_append]
            omega
          exact ⟨hq1, hq2, hq3, hq4, fun hk => by
            show cc2.parameters.length ≠ countPlaceholders .postgresql
              (strJoin "\n" [SelectClause.to_sql ⟨b.tables, none⟩,
                "WHERE " ++ wsql2])
            rw [hq4, hq3]
            omega⟩

theorem C10_select_build_not_idempotent_witness :
    countPlaceholders .postgresql
        ("SELECT * FROM user\nWHERE a = $1" : String) =
      (treeParams (Condition.simple "a" "=" (Value.vInt 1))).length ∧
    ([Value.vInt 1] : List Value).length =
      (treeParams (Condition.simple "a" "=" (Value.vInt 1))).length ∧
    countPlaceholders .postgresql
        ("SELECT * FROM user\nWHERE a = $2" : String) =
      (treeParams (Condition.simple "a" "=" (Value.vInt 1))).length ∧
    ([Value.vInt 1, Value.vInt 1] : List Value).length =
      2 * (treeParams (Condition.simple "a" "=" (Value.vInt 1))).length ∧
    (1 ≤ (treeParams (Condition.simple "a" "=" (Value.vInt 1))).length →
      ([Value.vInt 1, Value.vInt 1] : List Value).length ≠
        countPlaceholders .postgresql
          ("SELECT * FROM user\nWHERE a = $2" : String)) :=
  C10_select_build_not_idempotent demoSelect ⟨.simple "a" "=" (.vInt 1)⟩
    ⟨"SELECT * FROM user\nWHERE a = $1", [.vInt 1]⟩
    ⟨"SELECT * FROM user\nWHERE a = $2", [.vInt 1, .vInt 1]⟩
    { demoSelect with _compiler :=
      { sql_dialect := .postgresql, parameters := [.vInt 1],
        param_counter := 1 } }
    { demoSelect with _compiler :=
      { sql_dialect := .postgresql, parameters := [.vInt 1, .vInt 1],
        param_counter := 2 } }
    rfl rfl rfl rfl rfl rfl rfl (by decide) rfl rfl rfl

end Sqlp



